import Mathlib

/-
Verification of the capi-advisor core: a shallow embedding in Lean 4 of the
condition-status derivation (pkg/analyzer/discovery.go), the dependency
graph builder (pkg/tree/builder.go) and the condition advisory engine
(pkg/advisor/advisor.go), together with theorems settling the specification
claims about them.

Modelling conventions:
  * Go strings are Lean `String`s; `metav1.ConditionStatus` and the
    condition type are plain strings, exactly as in the Go source.
  * The closed string enums `ComponentType`, `ComponentStatus` and
    `ConditionSeverity` (pkg/analyzer/types.go) are inductive types with a
    `str` function giving the Go constant's string value.
  * Pointer graphs (`Component.Parent` / `Component.Children`) are
    represented by indices into the input record list: an `Edges` value
    holds `parent : List (Option Nat)` and `children : List (List Nat)`.
  * Go map iteration order is unspecified; the `TreeBuilder.components`
    map is determinised as an association list in key-insertion order
    (equal to input order whenever keys are distinct).  All general
    theorems below are independent of this choice.
  * `sort.Slice` of the Go standard library (Go >= 1.19) is embedded as
    the pdqsort algorithm of `sort/zsortfunc.go`, operating on a `List`
    with explicit index swaps.
-/

namespace CapiAdvisor

/-- The closed set of component kinds (pkg/analyzer/types.go, `ComponentType`). -/
inductive ComponentType where
  | Cluster
  | Machine
  | MachineSet
  | MachineDeployment
  | Metal3Machine
  | Metal3Cluster
  | BareMetalHost
  | KubeadmControlPlane
  | KubeadmConfig
deriving DecidableEq, Repr

/-- String value of the Go `ComponentType` constant. -/
def ComponentType.str : ComponentType → String
  | .Cluster => "Cluster"
  | .Machine => "Machine"
  | .MachineSet => "MachineSet"
  | .MachineDeployment => "MachineDeployment"
  | .Metal3Machine => "Metal3Machine"
  | .Metal3Cluster => "Metal3Cluster"
  | .BareMetalHost => "BareMetalHost"
  | .KubeadmControlPlane => "KubeadmControlPlane"
  | .KubeadmConfig => "KubeadmConfig"

/-- Component status values (pkg/analyzer/types.go, `ComponentStatus`). -/
inductive ComponentStatus where
  | Healthy
  | Degraded
  | Failed
  | Pending
  | Unknown
deriving DecidableEq, Repr

/-- Issue severities (pkg/analyzer/types.go, `ConditionSeverity`). -/
inductive ConditionSeverity where
  | Critical
  | Warning
  | Info
deriving DecidableEq, Repr

/-- One entry of a record's condition list (`metav1.Condition` as used by
the program: type, status, reason and message are plain strings; the
status strings produced by the API are "True", "False" and "Unknown").
`lastTransitionTime` is never read by the analysed code and is omitted. -/
structure Condition where
  type : String
  status : String
  reason : String
  message : String
deriving DecidableEq, Repr

/-- First loop of `determineComponentStatus` (pkg/analyzer/discovery.go
lines 194-207): a single in-order scan over the conditions; a
`Ready`/`Available` condition with status "False" returns Failed, with
status "True" returns Healthy; an `InfrastructureReady`/`BootstrapReady`/
`ControlPlaneReady` condition with status "False" returns Degraded; any
other condition is skipped. -/
def scanCritical : List Condition → Option ComponentStatus
  | [] => none
  | c :: rest =>
    if c.type = "Ready" ∨ c.type = "Available" then
      if c.status = "False" then some .Failed
      else if c.status = "True" then some .Healthy
      else scanCritical rest
    else if c.type = "InfrastructureReady" ∨ c.type = "BootstrapReady" ∨
        c.type = "ControlPlaneReady" then
      if c.status = "False" then some .Degraded
      else scanCritical rest
    else scanCritical rest

/-- `determineComponentStatus` (pkg/analyzer/discovery.go lines 188-224):
empty list gives Unknown; otherwise the first loop's verdict if any;
otherwise Degraded if any condition is "False", Pending if any is
"Unknown", else Healthy. -/
def determineComponentStatus (conds : List Condition) : ComponentStatus :=
  if conds.length = 0 then .Unknown
  else
    match scanCritical conds with
    | some s => s
    | none =>
      if conds.any (fun c => c.status = "False") then .Degraded
      else if conds.any (fun c => c.status = "Unknown") then .Pending
      else .Healthy

/-- A condition is decisive for the first scan loop of
`determineComponentStatus` when hitting it ends the scan. -/
def decisive (c : Condition) : Bool :=
  ((c.type == "Ready" || c.type == "Available") &&
    (c.status == "False" || c.status == "True")) ||
  ((c.type == "InfrastructureReady" || c.type == "BootstrapReady" ||
      c.type == "ControlPlaneReady") && c.status == "False")

/-! ## Embedding of Go `sort.Slice` (pdqsort, sort/zsortfunc.go, Go >= 1.19)

The slice is a `List α`, `data.Less i j` is `lessAt`, `data.Swap i j` is
`swapL`.  Loops whose termination is not structural carry an explicit
fuel argument; the top-level entry point supplies ample fuel, and every
theorem below about the sort holds for every fuel value. -/

/-- Element read `data[i]`; out-of-range reads cannot occur on the paths the
program executes, `none` branches are inert defaults. -/
def lessAt (less : α → α → Bool) (l : List α) (i j : Nat) : Bool :=
  match l.get? i, l.get? j with
  | some x, some y => less x y
  | _, _ => false

/-- `data.Swap(i, j)`. -/
def swapL (l : List α) (i j : Nat) : List α :=
  match l.get? i, l.get? j with
  | some x, some y => (l.set i y).set j x
  | _, _ => l

/-- Inner loop of `insertionSort_func`: bubble the element at position `j`
left while it is strictly less than its left neighbour (and `j > a`). -/
def insertInner (less : α → α → Bool) (a : Nat) : List α → Nat → List α
  | l, 0 => l
  | l, j+1 =>
    if a < j+1 ∧ lessAt less l (j+1) j then
      insertInner less a (swapL l (j+1) j) j
    else l

/-- Outer loop of `insertionSort_func`: `for i := a + 1; i < b; i++`.
Fuel-bounded structural recursion standing for the Go `for` loop; any
fuel of at least `b - i` gives the loop\x27s behaviour. -/
def insertOuter (less : α → α → Bool) (a b : Nat) :
    Nat → List α → Nat → List α
  | 0, l, _ => l
  | k+1, l, i =>
    if i < b then insertOuter less a b k (insertInner less a l i) (i+1) else l

/-- `insertionSort_func(data, a, b)`. -/
def insertionSortGo (less : α → α → Bool) (l : List α) (a b : Nat) : List α :=
  insertOuter less a b (b+1) l (a+1)

/-- `siftDown_func(data, lo, hi, first)`, with `root` the loop variable.
The Go local `child` (after its conditional increment) is inlined into
the two branches of the increment test; the loop runs at most `hi` times
since `root` strictly increases below `hi`. -/
def siftDownGo (less : α → α → Bool) (hi first : Nat) :
    Nat → List α → Nat → List α
  | 0, l, _ => l
  | k+1, l, root =>
    if 2*root+1 < hi then
      if 2*root+2 < hi ∧ lessAt less l (first+(2*root+1)) (first+(2*root+2))
        then
        if lessAt less l (first+root) (first+(2*root+2)) then
          siftDownGo less hi first k (swapL l (first+root) (first+(2*root+2)))
            (2*root+2)
        else l
      else
        if lessAt less l (first+root) (first+(2*root+1)) then
          siftDownGo less hi first k (swapL l (first+root) (first+(2*root+1)))
            (2*root+1)
        else l
    else l

/-- Heap-build phase of `heapSort_func`: `for i := (hi-1)/2; i >= 0; i--`;
the counter `k` is `i + 1`. -/
def heapBuild (less : α → α → Bool) (hi first : Nat) : List α → Nat → List α
  | l, 0 => l
  | l, k+1 => heapBuild less hi first (siftDownGo less hi first (hi+1) l k) k

/-- Pop phase of `heapSort_func`: `for i := hi - 1; i >= 0; i--`; the
counter `k` is `i + 1`. -/
def heapPop (less : α → α → Bool) (first : Nat) : List α → Nat → List α
  | l, 0 => l
  | l, k+1 =>
    heapPop less first
      (siftDownGo less k first (k+1) (swapL l first (first+k)) 0) k

/-- `heapSort_func(data, a, b)`. -/
def heapSortGo (less : α → α → Bool) (a b : Nat) (l : List α) : List α :=
  heapPop less a (heapBuild less (b-a) a l (((b-a)-1)/2 + 1)) (b-a)

/-- `reverseRange_func(data, a, b)` loop (`i = a`, `j = b - 1`);
fuel-bounded, at most `(j - i)/2 + 1` iterations run. -/
def reverseRangeGo : Nat → List α → Nat → Nat → List α
  | 0, l, _, _ => l
  | k+1, l, i, j =>
    if i < j then reverseRangeGo k (swapL l i j) (i+1) (j-1) else l

/-- First inner loop of `partialInsertionSort_func`: advance `i` while
`i < b && !data.Less(i, i-1)`; fuel-bounded, at most `b - i` steps run. -/
def advanceSorted (less : α → α → Bool) (b : Nat) (l : List α) :
    Nat → Nat → Nat
  | 0, i => i
  | k+1, i =>
    if i < b ∧ ¬ lessAt less l i (i-1) then advanceSorted less b l k (i+1)
    else i

/-- Left shift of `partialInsertionSort_func`:
`for j := i - 1; j >= 1; j--`. -/
def shiftLeftGo (less : α → α → Bool) : List α → Nat → List α
  | l, 0 => l
  | l, j+1 =>
    if lessAt less l (j+1) j then shiftLeftGo less (swapL l (j+1) j) j else l

/-- Right shift of `partialInsertionSort_func`:
`for j := i + 1; j < b; j++`; fuel-bounded, at most `b - j` steps run. -/
def shiftRightGo (less : α → α → Bool) (b : Nat) :
    Nat → List α → Nat → List α
  | 0, l, _ => l
  | k+1, l, j =>
    if j < b then
      if lessAt less l j (j-1) then
        shiftRightGo less b k (swapL l j (j-1)) (j+1)
      else l
    else l

/-- Body of `partialInsertionSort_func` (`maxSteps = 5`,
`shortestShifting = 50`); returns the data and the boolean result. -/
def partialInsertionLoop (less : α → α → Bool) (a b : Nat) :
    List α → Nat → Nat → List α × Bool
  | l, _, 0 => (l, false)
  | l, i, steps+1 =>
    let i' := advanceSorted less b l (b+1) i
    if i' = b then (l, true)
    else if b - a < 50 then (l, false)
    else
      let l₁ := swapL l i' (i'-1)
      let l₂ := if i' - a ≥ 2 then shiftLeftGo less l₁ (i'-1) else l₁
      let l₃ := if b - i' ≥ 2 then shiftRightGo less b (b+1) l₂ (i'+1) else l₂
      partialInsertionLoop less a b l₃ i' steps

/-- `partialInsertionSort_func(data, a, b)`. -/
def partialInsertionSortGo (less : α → α → Bool) (a b : Nat) (l : List α) :
    List α × Bool :=
  partialInsertionLoop less a b l (a+1) 5

inductive SortedHint where
  | increasing
  | decreasing
  | unknown
deriving DecidableEq, Repr

/-- `order2_func`: orders two indices by the data they point at,
counting a swap of the index variables (the data is not moved). -/
def order2Go (less : α → α → Bool) (l : List α) (a b swaps : Nat) :
    Nat × Nat × Nat :=
  if lessAt less l b a then (b, a, swaps+1) else (a, b, swaps)

/-- `median_func`: index of the median of three positions. -/
def medianGo (less : α → α → Bool) (l : List α) (a b c swaps : Nat) :
    Nat × Nat :=
  let (a₁, b₁, s₁) := order2Go less l a b swaps
  let (b₂, _, s₂) := order2Go less l b₁ c s₁
  let (_, b₃, s₃) := order2Go less l a₁ b₂ s₂
  (b₃, s₃)

/-- `medianAdjacent_func`. -/
def medianAdjacentGo (less : α → α → Bool) (l : List α) (a swaps : Nat) :
    Nat × Nat :=
  medianGo less l (a-1) a (a+1) swaps

/-- Translate the swap counter into a `sortedHint`
(`maxSwaps = 4 * 3 = 12`). -/
def hintOf (swaps : Nat) : SortedHint :=
  if swaps = 0 then .increasing
  else if swaps = 12 then .decreasing
  else .unknown

/-- `choosePivot_func(data, a, b)` (`shortestNinther = 50`); purely reads
the data. -/
def choosePivotGo (less : α → α → Bool) (l : List α) (a b : Nat) :
    Nat × SortedHint :=
  let length := b - a
  let i := a + length/4*1
  let j := a + length/4*2
  let k := a + length/4*3
  if length ≥ 8 then
    if length ≥ 50 then
      let (i', s₁) := medianAdjacentGo less l i 0
      let (j', s₂) := medianAdjacentGo less l j s₁
      let (k', s₃) := medianAdjacentGo less l k s₂
      let (m, s₄) := medianGo less l i' j' k' s₃
      (m, hintOf s₄)
    else
      let (m, s) := medianGo less l i j k 0
      (m, hintOf s)
  else (j, hintOf 0)

/-- Advance `i` in `partition_func`: `for i <= j && data.Less(i, a)`;
fuel-bounded, at most `bnd + 1 - i` steps run. -/
def partAdvanceI (less : α → α → Bool) (l : List α) (bnd a : Nat) :
    Nat → Nat → Nat
  | 0, i => i
  | k+1, i =>
    if i ≤ bnd ∧ lessAt less l i a then partAdvanceI less l bnd a k (i+1)
    else i

/-- Retreat `j` in `partition_func`: `for i <= j && !data.Less(j, a)`.
(The callers always pass `1 ≤ lo`, so the Go loop never drives `j` below
zero; at `j = 0` the loop is about to stop in every reachable state.) -/
def partAdvanceJ (less : α → α → Bool) (l : List α) (a lo : Nat) :
    Nat → Nat
  | 0 => 0
  | j+1 =>
    if lo ≤ j+1 ∧ ¬ lessAt less l (j+1) a then partAdvanceJ less l a lo j
    else j+1

/-- Main loop of `partition_func` after the first exchange (fuel-bounded;
never exhausted on executed paths). -/
def partLoop (less : α → α → Bool) (a : Nat) :
    Nat → List α → Nat → Nat → List α × Nat × Bool
  | 0, l, _, j => (swapL l j a, j, false)
  | fuel+1, l, i, j =>
    let i' := partAdvanceI less l j a (j+2) i
    let j' := partAdvanceJ less l a i' j
    if i' > j' then (swapL l j' a, j', false)
    else partLoop less a fuel (swapL l i' j') (i'+1) (j'-1)

/-- `partition_func(data, a, b, pivot)`: returns the data, the new pivot
position and `alreadyPartitioned`. -/
def partitionGo (less : α → α → Bool) (a b pivot : Nat) (l : List α) :
    List α × Nat × Bool :=
  let l₀ := swapL l a pivot
  let i := partAdvanceI less l₀ (b-1) a (b+1) (a+1)
  let j := partAdvanceJ less l₀ a i (b-1)
  if i > j then (swapL l₀ j a, j, true)
  else partLoop less a b (swapL l₀ i j) (i+1) (j-1)

/-- Advance `i` in `partitionEqual_func`: `for i <= j && !data.Less(a, i)`;
fuel-bounded. -/
def eqAdvanceI (less : α → α → Bool) (l : List α) (bnd a : Nat) :
    Nat → Nat → Nat
  | 0, i => i
  | k+1, i =>
    if i ≤ bnd ∧ ¬ lessAt less l a i then eqAdvanceI less l bnd a k (i+1)
    else i

/-- Retreat `j` in `partitionEqual_func`: `for i <= j && data.Less(a, j)`.
(As for `partAdvanceJ`, callers pass `1 ≤ lo`.) -/
def eqAdvanceJ (less : α → α → Bool) (l : List α) (a lo : Nat) :
    Nat → Nat
  | 0 => 0
  | j+1 =>
    if lo ≤ j+1 ∧ lessAt less l a (j+1) then eqAdvanceJ less l a lo j
    else j+1

/-- Loop of `partitionEqual_func` (fuel-bounded). -/
def partEqLoop (less : α → α → Bool) (a : Nat) :
    Nat → List α → Nat → Nat → List α × Nat
  | 0, l, i, _ => (l, i)
  | fuel+1, l, i, j =>
    let i' := eqAdvanceI less l j a (j+2) i
    let j' := eqAdvanceJ less l a i' j
    if i' > j' then (l, i')
    else partEqLoop less a fuel (swapL l i' j') (i'+1) (j'-1)

/-- `partitionEqual_func(data, a, b, pivot)`: returns data and the first
index of the strictly-greater suffix. -/
def partitionEqualGo (less : α → α → Bool) (a b pivot : Nat) (l : List α) :
    List α × Nat :=
  let l₀ := swapL l a pivot
  partEqLoop less a b l₀ (a+1) (b-1)

/-- One step of the `xorshift` generator seeded in `breakPatterns_func`
(64-bit state). -/
def xorshiftNext (r : Nat) : Nat :=
  let r₁ := (r ^^^ (r <<< 13)) % 2^64
  let r₂ := (r₁ ^^^ (r₁ >>> 7)) % 2^64
  (r₂ ^^^ (r₂ <<< 17)) % 2^64

/-- `bits.Len` of the Go standard library. -/
def bitsLen (n : Nat) : Nat :=
  if n = 0 then 0 else Nat.log2 n + 1

/-- `nextPowerOfTwo(length) = 1 << bits.Len(uint(length))`. -/
def nextPowerOfTwoGo (length : Nat) : Nat :=
  1 <<< bitsLen length

/-- Swap loop of `breakPatterns_func` (`i = 0, 1, 2`), threading the
xorshift state. -/
def breakLoop (a length modulus idx : Nat) : List α → Nat → Nat → List α
  | l, _, 0 => l
  | l, r, k+1 =>
    let r' := xorshiftNext r
    let other := r' % modulus
    let other' := if other ≥ length then other - length else other
    breakLoop a length modulus idx
      (swapL l (idx - 1 + (3 - (k+1))) (a + other')) r' k

/-- `breakPatterns_func(data, a, b)`. -/
def breakPatternsGo (l : List α) (a b : Nat) : List α :=
  let length := b - a
  if length ≥ 8 then
    let modulus := nextPowerOfTwoGo length
    let idx := a + (length/4)*2 - 1
    breakLoop a length modulus idx l length 3
  else l

/-- `pdqsort_func(data, a, b, limit)` (`maxInsertion = 12`).  The loop of
the Go function is the recursive call that keeps the current
`wasBalanced` / `wasPartitioned` flags; a fresh recursive Go call resets
both flags to `true`.  Fuel-bounded; all theorems hold for every fuel. -/
def pdqsortGo (less : α → α → Bool) :
    Nat → List α → Nat → Nat → Nat → Bool → Bool → List α
  | 0, l, _, _, _, _, _ => l
  | fuel+1, l, a, b, limit, wasBalanced, wasPartitioned =>
    let length := b - a
    if length ≤ 12 then insertionSortGo less l a b
    else if limit = 0 then heapSortGo less a b l
    else
      let l₀ := if ¬ wasBalanced then breakPatternsGo l a b else l
      let limit' := if ¬ wasBalanced then limit - 1 else limit
      let (pivot, hint) := choosePivotGo less l₀ a b
      let l₁ := if hint = .decreasing then reverseRangeGo b l₀ a (b-1) else l₀
      let pivot' := if hint = .decreasing then (b-1) - (pivot - a) else pivot
      let hint' := if hint = .decreasing then .increasing else hint
      let pres :=
        if wasBalanced ∧ wasPartitioned ∧ hint' = .increasing then
          partialInsertionSortGo less a b l₁
        else (l₁, false)
      if pres.2 then pres.1
      else
        let l₂ := pres.1
        if 0 < a ∧ ¬ lessAt less l₂ (a-1) pivot' then
          let (l₃, mid) := partitionEqualGo less a b pivot' l₂
          pdqsortGo less fuel l₃ mid b limit' wasBalanced wasPartitioned
        else
          let (l₃, mid, alreadyPartitioned) := partitionGo less a b pivot' l₂
          let leftLen := mid - a
          let rightLen := b - mid
          let balanceThreshold := length / 8
          let wasBalanced' := decide (min leftLen rightLen ≥ balanceThreshold)
          if leftLen < rightLen then
            let l₄ := pdqsortGo less fuel l₃ a mid limit' true true
            pdqsortGo less fuel l₄ (mid+1) b limit' wasBalanced'
              alreadyPartitioned
          else
            let l₄ := pdqsortGo less fuel l₃ (mid+1) b limit' true true
            pdqsortGo less fuel l₄ a mid limit' wasBalanced' alreadyPartitioned

/-- `sort.Slice(x, less)`: `limit := bits.Len(uint(length))` then
`pdqsort_func(data, 0, length, limit)`. -/
def sortSliceGo (less : α → α → Bool) (l : List α) : List α :=
  pdqsortGo less (2 * l.length + 8) l 0 l.length (bitsLen l.length) true true

/-! ## Go string helpers -/

/-- ASCII case folding of one character.  (`strings.ToLower` folds full
Unicode; every pattern scanned by the program is ASCII, and on ASCII the
two agree.) -/
def asciiLower (c : Char) : Char :=
  if c.toNat ≥ 65 ∧ c.toNat ≤ 90 then Char.ofNat (c.toNat + 32) else c

/-- `strings.ToLower` (ASCII fragment, see `asciiLower`). -/
def toLowerGo (s : String) : String :=
  String.mk (s.toList.map asciiLower)

/-- Does `sub` start `hay`? -/
def startsWithChars : List Char → List Char → Bool
  | [], _ => true
  | _ :: _, [] => false
  | a :: as, b :: bs => a == b && startsWithChars as bs

/-- Does `sub` occur in `hay` (at any position)? -/
def occursL (sub : List Char) : List Char → Bool
  | [] => startsWithChars sub []
  | c :: t => startsWithChars sub (c :: t) || occursL sub t

/-- `strings.Contains(s, sub)`. -/
def containsGo (s sub : String) : Bool :=
  occursL sub.toList s.toList

/-! ## The resource record -/

/-- An object-reference field of a raw spec document: present as a map,
with an optional string `name` field (pkg/tree/builder.go probes only
`name`). -/
structure RefName where
  name : Option String
deriving DecidableEq, Repr

/-- The fields of `Metadata["spec"]` probed by the Graph Builder
(pkg/tree/builder.go): `clusterName`, `infrastructureRef`,
`bootstrap.configRef`, `controlPlaneRef`, and the presence of
`hostSelector`.  A `none` models a missing or wrongly typed field, for
which every `unstructured.Nested*` probe reports not-found. -/
structure SpecFields where
  clusterName : Option String
  infrastructureRef : Option RefName
  bootstrapConfigRef : Option RefName
  controlPlaneRef : Option RefName
  hostSelector : Bool
deriving DecidableEq, Repr

/-- One entry of `metadata.ownerReferences` as probed by `isOwnedBy`:
optional string fields `name` and `kind`. -/
structure OwnerRef where
  name : Option String
  kind : Option String
deriving DecidableEq, Repr

/-- The fields of `Metadata["metadata"]` probed by `isOwnedBy`. -/
structure MetaFields where
  ownerReferences : Option (List OwnerRef)
deriving DecidableEq, Repr

/-- A resource record (`analyzer.Component`).  The pointer fields
`Parent`/`Children` live in a separate `Edges` value (records are
referred to by their index in the discovery list); `GVK` and the label
map are never read by the analysed code and are omitted. -/
structure Component where
  name : String
  ns : String
  type : ComponentType
  conditions : List Condition
  status : ComponentStatus
  spec : Option SpecFields
  meta : Option MetaFields
deriving DecidableEq, Repr

instance : Inhabited Component :=
  ⟨⟨"", "", .Cluster, [], .Unknown, none, none⟩⟩

/-- Record `i` of the discovery list (indices stand for Go pointers and
are always in range on executed paths). -/
def getC (comps : List Component) (i : Nat) : Component :=
  comps.getD i default

/-- The parent/children edge state of all records: `parent` is
`Component.Parent` (index or none), `children` is `Component.Children`
(list of indices), both indexed by record position. -/
structure Edges where
  parent : List (Option Nat)
  children : List (List Nat)
deriving DecidableEq, Repr

/-- Fresh records: no parent, no children (state of the collection as
produced by discovery). -/
def emptyEdges (n : Nat) : Edges :=
  ⟨List.replicate n none, List.replicate n []⟩

/-! ## The condition advisory engine (pkg/advisor/advisor.go) -/

/-- One rule of the knowledge base (`advisor.KnowledgeEntry`). -/
structure KnowledgeEntry where
  condition : String
  severity : ConditionSeverity
  cause : String
  resolution : String
  dependencies : List String
deriving DecidableEq, Repr

/-- The static knowledge base loaded by `loadKnowledgeBase`, keyed by
`"Kind.ConditionType.False"`. -/
def knowledgeBase : List (String × KnowledgeEntry) := [
  ("Cluster.Ready.False",
   { condition := "Cluster Ready is False",
     severity := .Critical,
     cause := "Infrastructure or control plane is not ready",
     resolution := "1. Check if InfrastructureReady condition is True\n   2. Verify ControlPlaneReady condition is True\n   3. Inspect Metal3Cluster and KubeadmControlPlane resources\n   4. Review cluster events: kubectl describe cluster <name>",
     dependencies := ["Metal3Cluster", "KubeadmControlPlane"] }),
  ("Cluster.InfrastructureReady.False",
   { condition := "Cluster InfrastructureReady is False",
     severity := .Critical,
     cause := "Infrastructure provider is not ready",
     resolution := "1. Check Metal3Cluster resource: kubectl describe metal3cluster <name>\n   2. Verify network configuration in Metal3Cluster spec\n   3. Check infrastructure provider controller logs\n   4. Ensure required networks (provisioning, external) are configured",
     dependencies := ["Metal3Cluster"] }),
  ("Cluster.ControlPlaneReady.False",
   { condition := "Cluster ControlPlaneReady is False",
     severity := .Critical,
     cause := "Control plane nodes are not ready",
     resolution := "1. Check KubeadmControlPlane status: kubectl describe kcp <name>\n   2. Verify control plane replicas are scheduled\n   3. Check control plane Machine resources status\n   4. Review etcd pod logs if cluster is partially up\n   5. Check for sufficient control plane nodes matching desired replicas",
     dependencies := ["KubeadmControlPlane", "Machine"] }),
  ("Machine.Ready.False",
   { condition := "Machine Ready is False",
     severity := .Critical,
     cause := "Machine infrastructure or bootstrap is not ready",
     resolution := "1. Check Machine status: kubectl describe machine <name>\n   2. Verify InfrastructureReady condition status\n   3. Check BootstrapReady condition status\n   4. Review Metal3Machine and KubeadmConfig resources\n   5. Check node status if partially provisioned",
     dependencies := ["Metal3Machine", "KubeadmConfig"] }),
  ("Machine.InfrastructureReady.False",
   { condition := "Machine InfrastructureReady is False",
     severity := .Critical,
     cause := "Metal3Machine is not ready",
     resolution := "1. Check Metal3Machine: kubectl describe metal3machine <name>\n   2. Verify BareMetalHost association and status\n   3. Check if BareMetalHost is in \x27provisioned\x27 state\n   4. Review BMC credentials and connectivity\n   5. Check baremetal-operator logs for provisioning errors",
     dependencies := ["Metal3Machine", "BareMetalHost"] }),
  ("Machine.BootstrapReady.False",
   { condition := "Machine BootstrapReady is False",
     severity := .Critical,
     cause := "Bootstrap configuration is not ready",
     resolution := "1. Check KubeadmConfig: kubectl describe kubeadmconfig <name>\n   2. For control plane: verify API server is accessible\n   3. For workers: ensure control plane is ready\n   4. Check cluster connectivity and certificates\n   5. Review bootstrap provider controller logs",
     dependencies := ["KubeadmConfig"] }),
  ("Metal3Machine.Ready.False",
   { condition := "Metal3Machine Ready is False",
     severity := .Critical,
     cause := "BareMetalHost is not available or not provisioned",
     resolution := "1. Check Metal3Machine: kubectl describe metal3machine <name>\n   2. Verify BareMetalHost binding and status\n   3. Check BareMetalHost state (should be \x27provisioned\x27)\n   4. Test BMC connectivity: ipmitool -H <bmc-ip> -U <user> -P <pass> power status\n   5. Review image URL and ensure it\x27s accessible\n   6. Check baremetal-operator controller logs",
     dependencies := ["BareMetalHost"] }),
  ("Metal3Machine.AssociationReady.False",
   { condition := "Metal3Machine AssociationReady is False",
     severity := .Warning,
     cause := "Unable to associate with BareMetalHost",
     resolution := "1. Check hostSelector labels in Metal3Machine spec\n   2. List available BareMetalHosts: kubectl get bmh -A\n   3. Verify BareMetalHost labels match hostSelector\n   4. Ensure BareMetalHost is not already claimed by another machine\n   5. Check if sufficient available hosts exist for provisioning",
     dependencies := ["BareMetalHost"] }),
  ("BareMetalHost.Ready.False",
   { condition := "BareMetalHost Ready is False",
     severity := .Critical,
     cause := "Hardware is not available or provisioning failed",
     resolution := "1. Check BareMetalHost: kubectl describe bmh <name> -n <namespace>\n   2. Test BMC connectivity from baremetal-operator pod\n   3. Verify BMC credentials in secret\n   4. Check provisioning state and error messages\n   5. Ensure provisioning image is accessible\n   6. Review hardware compatibility and RAID configuration\n   7. Check Ironic logs for detailed provisioning errors",
     dependencies := [] }),
  ("BareMetalHost.Available.False",
   { condition := "BareMetalHost Available is False",
     severity := .Warning,
     cause := "Host is not available for provisioning",
     resolution := "1. Check if host is powered on: kubectl get bmh <name> -o jsonpath=\x27\x7b.status.poweredOn\x7d\x27\n   2. Test BMC accessibility from cluster network\n   3. Verify BMC credentials are correct\n   4. Check hardware inspection status\n   5. Review operationalStatus and errorMessage fields\n   6. Ensure host is not in maintenance mode",
     dependencies := [] }),
  ("BareMetalHost.Provisioned.False",
   { condition := "BareMetalHost Provisioned is False",
     severity := .Critical,
     cause := "Provisioning process failed or is in progress",
     resolution := "1. Check provisioning state: kubectl get bmh <name> -o jsonpath=\x27\x7b.status.provisioning.state\x7d\x27\n   2. Review provisioning error message in status\n   3. Verify image URL is accessible from provisioning network\n   4. Check disk format and partitioning settings\n   5. Ensure sufficient disk space for image\n   6. Review Ironic deployment and agent logs\n   7. Check network connectivity during provisioning",
     dependencies := [] }),
  ("KubeadmControlPlane.Ready.False",
   { condition := "KubeadmControlPlane Ready is False",
     severity := .Critical,
     cause := "Control plane nodes are not ready",
     resolution := "1. Check KubeadmControlPlane: kubectl describe kcp <name>\n   2. List control plane machines: kubectl get machines -l cluster.x-k8s.io/control-plane\n   3. Check machine readiness and node status\n   4. Verify desired vs ready replicas count\n   5. Review etcd health if cluster is accessible\n   6. Check control plane provider controller logs\n   7. Ensure kubeconfig secret exists for workload cluster",
     dependencies := ["Machine"] }),
  ("KubeadmControlPlane.Initialized.False",
   { condition := "KubeadmControlPlane Initialized is False",
     severity := .Critical,
     cause := "Control plane initialization failed",
     resolution := "1. Check first control plane machine status\n   2. Review kubeadm init logs on first control plane node\n   3. Verify bootstrap configuration in KubeadmControlPlane spec\n   4. Check if certificates were generated correctly\n   5. Ensure control plane endpoint is configured\n   6. Review cloud-init logs on control plane node\n   7. Verify network connectivity for API server",
     dependencies := ["Machine"] }),
  ("KubeadmControlPlane.CertificatesAvailable.False",
   { condition := "KubeadmControlPlane CertificatesAvailable is False",
     severity := .Critical,
     cause := "Control plane certificates are not available",
     resolution := "1. Check if cluster-certificates secret exists\n   2. Verify certificate generation in first control plane node\n   3. Review kubeadm certificate commands output\n   4. Check bootstrap provider logs for errors\n   5. Ensure control plane has completed initialization",
     dependencies := ["Machine"] }),
  ("KubeadmConfig.Ready.False",
   { condition := "KubeadmConfig Ready is False",
     severity := .Warning,
     cause := "Bootstrap configuration is not ready",
     resolution := "1. Check KubeadmConfig: kubectl describe kubeadmconfig <name>\n   2. Verify bootstrap data secret was created\n   3. For workers: ensure control plane is ready and accessible\n   4. Check cluster connectivity and certificate validity\n   5. Review bootstrap provider controller logs\n   6. Verify join configuration is correct",
     dependencies := [] }),
  ("KubeadmConfig.DataSecretAvailable.False",
   { condition := "KubeadmConfig DataSecretAvailable is False",
     severity := .Warning,
     cause := "Bootstrap data secret has not been generated",
     resolution := "1. Check if bootstrap data secret exists\n   2. Verify KubeadmConfig reconciliation status\n   3. Ensure control plane is accessible for worker nodes\n   4. Review bootstrap provider controller logs\n   5. Check for any errors in KubeadmConfig status",
     dependencies := [] })]

/-- Go map read `a.knowledgeBase[key]`. -/
def kbLookup (key : String) : Option KnowledgeEntry :=
  knowledgeBase.lookup key

/-- One detected problem (`analyzer.Issue`); the offending record and the
related records are indices into the discovery list. -/
structure Issue where
  compIdx : Nat
  condition : Condition
  severity : ConditionSeverity
  description : String
  cause : String
  resolution : String
  dependencies : List Nat
deriving DecidableEq, Repr

instance : Inhabited Issue :=
  ⟨⟨0, ⟨"", "", "", ""⟩, .Warning, "", "", "", []⟩⟩

/-- Guidance text of the connectivity/BMC pattern category. -/
def guidanceBMC : String :=
  "   - BMC connection issue detected. Verify:\n     * BMC IP address is reachable from baremetal-operator pod\n     * BMC credentials are correct in the secret\n     * Firewall rules allow IPMI traffic (port 623)\n     * BMC firmware is up to date"

/-- Guidance text of the image/provisioning pattern category. -/
def guidanceImage : String :=
  "   - Image access issue detected. Verify:\n     * Image URL is accessible from provisioning network\n     * HTTP server hosting the image is running\n     * Image checksum matches if specified\n     * Sufficient disk space on target host"

/-- Guidance text of the network/timeout pattern category. -/
def guidanceNetwork : String :=
  "   - Network connectivity issue detected. Verify:\n     * Network connectivity between components\n     * DNS resolution is working\n     * No firewall blocking required ports\n     * Check for network policy restrictions"

/-- Guidance text of the certificate pattern category. -/
def guidanceCertificate : String :=
  "   - Certificate issue detected. Verify:\n     * Certificates are not expired\n     * Certificate chain is complete\n     * CA bundle is correctly configured\n     * System time is synchronized (NTP)"

/-- Guidance text of the resource-exhaustion pattern category. -/
def guidanceResources : String :=
  "   - Resource availability issue detected. Verify:\n     * Sufficient BareMetalHosts are available\n     * Hosts meet the required specifications\n     * No resource quotas are being exceeded\n     * Check cluster capacity and node resources"

/-- Guidance text of the authorization pattern category. -/
def guidanceAuth : String :=
  "   - Authentication/authorization issue detected. Verify:\n     * Service account has correct permissions\n     * RBAC roles and bindings are configured\n     * Secrets contain valid credentials\n     * API server is accessible"

/-- Guidance text of the dependency-wait pattern category. -/
def guidanceWaiting : String :=
  "   - Waiting for dependencies. Check:\n     * All prerequisite resources are ready\n     * Dependencies are not blocked\n     * Review the full component hierarchy\n     * Check for circular dependencies"

/-- `getSpecificGuidanceFromReason(reason, message, comp)`: sequential
case-insensitive substring tests, first match wins; the `comp` argument
of the Go function is never read and is omitted. -/
def getSpecificGuidanceFromReason (reason message : String) : String :=
  let reasonLower := toLowerGo reason
  let messageLower := toLowerGo message
  if containsGo reasonLower "bmc" || containsGo messageLower "ipmi" ||
      containsGo messageLower "bmc" || containsGo reasonLower "connection" then
    guidanceBMC
  else if containsGo reasonLower "image" || containsGo messageLower "image" ||
      containsGo messageLower "download" || containsGo messageLower "http" then
    guidanceImage
  else if containsGo reasonLower "timeout" || containsGo messageLower "timeout" ||
      containsGo messageLower "connection refused" ||
      containsGo messageLower "network" then
    guidanceNetwork
  else if containsGo reasonLower "certificate" ||
      containsGo messageLower "certificate" ||
      containsGo messageLower "tls" || containsGo messageLower "x509" then
    guidanceCertificate
  else if containsGo reasonLower "insufficient" ||
      containsGo messageLower "insufficient" ||
      containsGo messageLower "no available" ||
      containsGo messageLower "quota" then
    guidanceResources
  else if containsGo reasonLower "auth" || containsGo messageLower "auth" ||
      containsGo messageLower "permission" ||
      containsGo messageLower "forbidden" then
    guidanceAuth
  else if containsGo reasonLower "waiting" || containsGo messageLower "waiting" ||
      containsGo reasonLower "pending" then
    guidanceWaiting
  else ""

/-- `enhanceCause(baseCause, condition)`. -/
def enhanceCause (baseCause : String) (cond : Condition) : String :=
  if cond.reason ≠ "" ∧ cond.message ≠ "" then
    baseCause ++ "\nReason: " ++ cond.reason ++ "\nDetails: " ++ cond.message
  else if cond.reason ≠ "" then
    baseCause ++ "\nReason: " ++ cond.reason
  else if cond.message ≠ "" then
    baseCause ++ "\nDetails: " ++ cond.message
  else baseCause

/-- `enhanceResolution(baseResolution, condition, comp)`; `comp` is only
forwarded to `getSpecificGuidanceFromReason`, which ignores it. -/
def enhanceResolution (baseResolution : String) (cond : Condition) : String :=
  let specificGuidance := getSpecificGuidanceFromReason cond.reason cond.message
  if specificGuidance ≠ "" then
    baseResolution ++ "\n\n💡 Specific guidance based on current state:\n" ++
      specificGuidance
  else baseResolution

/-- `buildGenericCause(condition)`. -/
def buildGenericCause (cond : Condition) : String :=
  if cond.reason ≠ "" ∧ cond.message ≠ "" then
    "Reason: " ++ cond.reason ++ "\nDetails: " ++ cond.message
  else if cond.reason ≠ "" then
    "Reason: " ++ cond.reason
  else if cond.message ≠ "" then
    "Details: " ++ cond.message
  else "Unknown cause - no additional information available"

/-- The template part of `buildGenericResolution(comp, condition)`. -/
def genericResolutionBase (comp : Component) : String :=
  "1. Check " ++ comp.type.str ++ " resource: kubectl describe " ++
    toLowerGo comp.type.str ++ " " ++ comp.name ++ " -n " ++ comp.ns ++
    "\n   2. Review the condition message and reason above\n   3. Check controller logs for this resource type\n   4. Review recent events: kubectl get events -n " ++
    comp.ns ++ " --field-selector involvedObject.name=" ++ comp.name

/-- `buildGenericResolution(comp, condition)`. -/
def buildGenericResolution (comp : Component) (cond : Condition) : String :=
  let resolution := genericResolutionBase comp
  let specificGuidance := getSpecificGuidanceFromReason cond.reason cond.message
  if specificGuidance ≠ "" then
    resolution ++ "\n\n💡 Specific guidance based on error:\n" ++
      specificGuidance
  else resolution

/-- `findDependencies(comp, depTypes)`: for each dependency kind collect
matching children, then matching siblings (children of the parent other
than the record itself). -/
def findDependencies (comps : List Component) (E : Edges) (i : Nat)
    (depTypes : List String) : List Nat :=
  depTypes.foldl (fun deps depType =>
    let childDeps := (E.children.getD i []).filter
      (fun c => (getC comps c).type.str == depType)
    let sibDeps := match E.parent.getD i none with
      | some p => (E.children.getD p []).filter
          (fun s => (getC comps s).type.str == depType && s != i)
      | none => []
    deps ++ childDeps ++ sibDeps) []

/-- `analyzeComponent(comp)`: one issue per condition with status
"False" — a knowledge-base issue when the key matches, otherwise the
generic issue. -/
def analyzeComponent (comps : List Component) (E : Edges) (i : Nat) :
    List Issue :=
  let comp := getC comps i
  comp.conditions.foldl (fun issues cond =>
    if cond.status == "False" then
      let key := comp.type.str ++ "." ++ cond.type ++ "." ++ cond.status
      match kbLookup key with
      | some knowledge =>
        issues ++
          [{ compIdx := i, condition := cond,
             severity := knowledge.severity,
             description := knowledge.condition,
             cause := enhanceCause knowledge.cause cond,
             resolution := enhanceResolution knowledge.resolution cond,
             dependencies :=
               findDependencies comps E i knowledge.dependencies }]
      | none =>
        issues ++
          [{ compIdx := i, condition := cond,
             severity := .Warning,
             description :=
               comp.type.str ++ " " ++ cond.type ++ " is " ++ cond.status,
             cause := buildGenericCause cond,
             resolution := buildGenericResolution comp cond,
             dependencies := [] }]
    else issues) []

/-- The `severityOrder` map of the sort comparator in
`AnalyzeComponents`. -/
def severityRank : ConditionSeverity → Nat
  | .Critical => 0
  | .Warning => 1
  | .Info => 2

/-- The `less` closure handed to `sort.Slice`. -/
def issueLess (x y : Issue) : Bool :=
  decide (severityRank x.severity < severityRank y.severity)

/-- Pointwise counter increment (Go `m[k]++`). -/
def bump [DecidableEq σ] (f : σ → Nat) (s : σ) : σ → Nat :=
  fun t => if t = s then f t + 1 else f t

/-- The accumulation loop of `AnalyzeComponents`: status counts, the
issue list in scan order, and severity counts. -/
def analyzeScan (comps : List Component) (E : Edges) :
    (ComponentStatus → Nat) × List Issue × (ConditionSeverity → Nat) :=
  (List.range comps.length).foldl
    (fun acc i =>
      let compIssues := analyzeComponent comps E i
      (bump acc.1 (getC comps i).status,
       acc.2.1 ++ compIssues,
       compIssues.foldl (fun vc iss => bump vc iss.severity) acc.2.2))
    ((fun _ => 0), [], (fun _ => 0))

/-- `determineClusterHealth(statusCounts, severityCounts)`. -/
def determineClusterHealth (sc : ComponentStatus → Nat)
    (vc : ConditionSeverity → Nat) : ComponentStatus :=
  if vc .Critical > 0 ∨ sc .Failed > 0 then .Failed
  else if vc .Warning > 0 ∨ sc .Degraded > 0 then .Degraded
  else if sc .Pending > 0 then .Pending
  else .Healthy

/-- `analyzer.Summary`. -/
structure Summary where
  totalComponents : Nat
  statusCounts : ComponentStatus → Nat
  severityCounts : ConditionSeverity → Nat
  clusterHealth : ComponentStatus

/-- `analyzer.AnalysisResult`. -/
structure AnalysisResult where
  components : List Component
  issues : List Issue
  summary : Summary

/-- `AnalyzeComponents(components)`: scan, sort by severity with
`sort.Slice`, roll up the health verdict. -/
def analyzeComponents (comps : List Component) (E : Edges) :
    AnalysisResult :=
  let scan := analyzeScan comps E
  { components := comps,
    issues := sortSliceGo issueLess scan.2.1,
    summary :=
      { totalComponents := comps.length,
        statusCounts := scan.1,
        severityCounts := scan.2.2,
        clusterHealth := determineClusterHealth scan.1 scan.2.2 } }

/-! ### Characterization helpers for the advisory engine

The definitions below are specification-side descriptions used by the
theorems; `analyzeComponent`/`analyzeScan` above are the source
translations, and lemmas prove that they coincide. -/

/-- The single issue `analyzeComponent` emits for one condition of status
"False": the knowledge-base issue when the key matches, else the generic
issue. -/
def mkIssue (comps : List Component) (E : Edges) (i : Nat)
    (cond : Condition) : Issue :=
  let comp := getC comps i
  match kbLookup (comp.type.str ++ "." ++ cond.type ++ "." ++ cond.status) with
  | some knowledge =>
    { compIdx := i, condition := cond,
      severity := knowledge.severity,
      description := knowledge.condition,
      cause := enhanceCause knowledge.cause cond,
      resolution := enhanceResolution knowledge.resolution cond,
      dependencies := findDependencies comps E i knowledge.dependencies }
  | none =>
    { compIdx := i, condition := cond,
      severity := .Warning,
      description := comp.type.str ++ " " ++ cond.type ++ " is " ++ cond.status,
      cause := buildGenericCause cond,
      resolution := buildGenericResolution comp cond,
      dependencies := [] }

/-- The issue list of the per-record scan in scan order (input record
order, then per-record condition order), before sorting. -/
def scanIssues (comps : List Component) (E : Edges) : List Issue :=
  ((List.range comps.length).map (analyzeComponent comps E)).flatten

/-- All (record index, condition) pairs with a "False" condition, in scan
order. -/
def falseConditionsOf (comps : List Component) : List (Nat × Condition) :=
  ((List.range comps.length).map (fun i =>
    ((getC comps i).conditions.filter (fun c => c.status == "False")).map
      (fun c => (i, c)))).flatten

/-- The issues of severity `v`, in their relative order. -/
def sevFilter (v : ConditionSeverity) (issues : List Issue) : List Issue :=
  issues.filter (fun i => i.severity == v)

/-- The ordered pattern categories of the guidance scan as the
specification describes them: a priority list of (predicate over the
lower-cased reason/message, guidance block), first match wins. -/
def guidanceCategories : List ((String → String → Bool) × String) :=
  [(fun r m => containsGo r "bmc" || containsGo m "ipmi" ||
      containsGo m "bmc" || containsGo r "connection", guidanceBMC),
   (fun r m => containsGo r "image" || containsGo m "image" ||
      containsGo m "download" || containsGo m "http", guidanceImage),
   (fun r m => containsGo r "timeout" || containsGo m "timeout" ||
      containsGo m "connection refused" || containsGo m "network",
    guidanceNetwork),
   (fun r m => containsGo r "certificate" || containsGo m "certificate" ||
      containsGo m "tls" || containsGo m "x509", guidanceCertificate),
   (fun r m => containsGo r "insufficient" || containsGo m "insufficient" ||
      containsGo m "no available" || containsGo m "quota", guidanceResources),
   (fun r m => containsGo r "auth" || containsGo m "auth" ||
      containsGo m "permission" || containsGo m "forbidden", guidanceAuth),
   (fun r m => containsGo r "waiting" || containsGo m "waiting" ||
      containsGo r "pending", guidanceWaiting)]

/-! ## The dependency graph builder (pkg/tree/builder.go)

`TreeBuilder.components` is a Go map from `namespace/name/type` keys to
records.  Go leaves map iteration order unspecified; it is determinised
here as an association list in key-insertion order (insertion of an
existing key overwrites the value in place), which coincides with input
order when keys are distinct.  The general theorems below do not depend
on this choice. -/

/-- `getComponentKey(comp)`. -/
def componentKey (c : Component) : String :=
  c.ns ++ "/" ++ c.name ++ "/" ++ c.type.str

/-- Go map insert `m[k] = v` on the association-list determinisation. -/
def insertKey (k : String) (v : Nat) :
    List (String × Nat) → List (String × Nat)
  | [] => [(k, v)]
  | (k', v') :: rest =>
    if k' = k then (k', v) :: rest else (k', v') :: insertKey k v rest

/-- The index built by the first loop of `BuildDependencyTree`. -/
def buildIndex (comps : List Component) : List (String × Nat) :=
  (List.range comps.length).foldl
    (fun m i => insertKey (componentKey (getC comps i)) i m) []

/-- The record indices stored in the map, in iteration order. -/
def idxIds (comps : List Component) : List Nat :=
  (buildIndex comps).map Prod.snd

/-- `findComponent(name, namespace, compType)`: first map entry whose
record matches all three. -/
def findComponent (comps : List Component) (name ns : String)
    (t : ComponentType) : Option Nat :=
  (idxIds comps).find? (fun i =>
    (getC comps i).name == name && (getC comps i).ns == ns &&
      (getC comps i).type == t)

/-- `findBareMetalHostBySelector(selector, namespace)`: first map entry of
kind BareMetalHost in the namespace; the selector argument is never read
by the source ("In a real implementation, this would match labels") and
the record's current parent is not consulted. -/
def findBareMetalHostBySelector (comps : List Component) (ns : String) :
    Option Nat :=
  (idxIds comps).find? (fun i =>
    (getC comps i).type == .BareMetalHost && (getC comps i).ns == ns)

/-- `isOwnedBy(comp, ownerName, ownerKind)`. -/
def isOwnedBy (c : Component) (ownerName ownerKind : String) : Bool :=
  match c.meta with
  | some md =>
    match md.ownerReferences with
    | some refs =>
      refs.any (fun r => r.name == some ownerName && r.kind == some ownerKind)
    | none => false
  | none => false

/-- `setParentChild(parent, child)`: set the edge only when the child has
no parent yet (first edge wins). -/
def setParentChild (e : Edges) (p c : Nat) : Edges :=
  if e.parent.getD c none = none then
    ⟨e.parent.set c (some p), e.children.set p (e.children.getD p [] ++ [c])⟩
  else e

/-- `buildMachineRelationships(machine)`. -/
def buildMachineRelationships (comps : List Component) (i : Nat)
    (e : Edges) : Edges :=
  let m := getC comps i
  match m.spec with
  | none => e
  | some sp =>
    let e₁ := match sp.clusterName with
      | some cn =>
        match findComponent comps cn m.ns .Cluster with
        | some cluster => setParentChild e cluster i
        | none => e
      | none => e
    let e₂ := match sp.infrastructureRef with
      | some r =>
        match r.name with
        | some nm =>
          match findComponent comps nm m.ns .Metal3Machine with
          | some infraMachine => setParentChild e₁ i infraMachine
          | none => e₁
        | none => e₁
      | none => e₁
    match sp.bootstrapConfigRef with
    | some r =>
      match r.name with
      | some nm =>
        match findComponent comps nm m.ns .KubeadmConfig with
        | some bootstrapConfig => setParentChild e₂ i bootstrapConfig
        | none => e₂
      | none => e₂
    | none => e₂

/-- `buildMachineSetRelationships(machineSet)`: scan the map for Machines
owned by this MachineSet. -/
def buildMachineSetRelationships (comps : List Component) (i : Nat)
    (e : Edges) : Edges :=
  (idxIds comps).foldl (fun e j =>
    if (getC comps j).type = .Machine ∧
        isOwnedBy (getC comps j) (getC comps i).name "MachineSet" then
      setParentChild e i j
    else e) e

/-- `buildMachineDeploymentRelationships(machineDeployment)`. -/
def buildMachineDeploymentRelationships (comps : List Component) (i : Nat)
    (e : Edges) : Edges :=
  (idxIds comps).foldl (fun e j =>
    if (getC comps j).type = .MachineSet ∧
        isOwnedBy (getC comps j) (getC comps i).name "MachineDeployment" then
      setParentChild e i j
    else e) e

/-- `buildMetal3MachineRelationships(metal3Machine)`. -/
def buildMetal3MachineRelationships (comps : List Component) (i : Nat)
    (e : Edges) : Edges :=
  let m := getC comps i
  match m.spec with
  | none => e
  | some sp =>
    if sp.hostSelector then
      match findBareMetalHostBySelector comps m.ns with
      | some bmh => setParentChild e i bmh
      | none => e
    else e

/-- `buildClusterRelationships(cluster)`. -/
def buildClusterRelationships (comps : List Component) (i : Nat)
    (e : Edges) : Edges :=
  let m := getC comps i
  match m.spec with
  | none => e
  | some sp =>
    let e₁ := match sp.infrastructureRef with
      | some r =>
        match r.name with
        | some nm =>
          match findComponent comps nm m.ns .Metal3Cluster with
          | some infraCluster => setParentChild e i infraCluster
          | none => e
        | none => e
      | none => e
    match sp.controlPlaneRef with
    | some r =>
      match r.name with
      | some nm =>
        match findComponent comps nm m.ns .KubeadmControlPlane with
        | some controlPlane => setParentChild e₁ i controlPlane
        | none => e₁
      | none => e₁
    | none => e₁

/-- `buildKubeadmControlPlaneRelationships(kcp)`. -/
def buildKubeadmControlPlaneRelationships (comps : List Component) (i : Nat)
    (e : Edges) : Edges :=
  (idxIds comps).foldl (fun e j =>
    if (getC comps j).type = .Machine ∧
        isOwnedBy (getC comps j) (getC comps i).name "KubeadmControlPlane" then
      setParentChild e i j
    else e) e

/-- `buildRelationships(comp)`: dispatch on the record kind. -/
def buildRelationships (comps : List Component) (i : Nat) (e : Edges) :
    Edges :=
  match (getC comps i).type with
  | .Machine => buildMachineRelationships comps i e
  | .MachineSet => buildMachineSetRelationships comps i e
  | .MachineDeployment => buildMachineDeploymentRelationships comps i e
  | .Metal3Machine => buildMetal3MachineRelationships comps i e
  | .Cluster => buildClusterRelationships comps i e
  | .KubeadmControlPlane => buildKubeadmControlPlaneRelationships comps i e
  | _ => e

/-- The relationship loop of `BuildDependencyTree`, over the input list in
order. -/
def buildEdges (comps : List Component) (e : Edges) : Edges :=
  (List.range comps.length).foldl (fun e i => buildRelationships comps i e) e

/-- Root collection of `BuildDependencyTree`: records without parent, in
input order. -/
def rootsOf (comps : List Component) (e : Edges) : List Nat :=
  (List.range comps.length).filter (fun i => e.parent.getD i none = none)

/-- `BuildDependencyTree(components)` started from edge state `e` (fresh
records have `e = emptyEdges comps.length`): the final edge state and
the returned roots. -/
def buildDependencyTree (comps : List Component) (e : Edges) :
    Edges × List Nat :=
  let e' := buildEdges comps e
  (e', rootsOf comps e')

/-! ### Attempt lists

Every rule issues a sequence of `setParentChild` attempts whose pairs are
computed from the (immutable) records alone, never from the current edge
state.  The lists below collect those pairs; the theorems prove that the
builder equals folding `applyEdge` over them. -/

/-- One `setParentChild(parent, child)` attempt applied to the edge
state. -/
def applyEdge (e : Edges) (pc : Nat × Nat) : Edges :=
  setParentChild e pc.1 pc.2

/-- The attempts issued by `buildMachineRelationships`. -/
def attemptsMachine (comps : List Component) (i : Nat) : List (Nat × Nat) :=
  let m := getC comps i
  match m.spec with
  | none => []
  | some sp =>
    (match sp.clusterName with
     | some cn =>
       match findComponent comps cn m.ns .Cluster with
       | some cluster => [(cluster, i)]
       | none => []
     | none => []) ++
    (match sp.infrastructureRef with
     | some r =>
       match r.name with
       | some nm =>
         match findComponent comps nm m.ns .Metal3Machine with
         | some infraMachine => [(i, infraMachine)]
         | none => []
       | none => []
     | none => []) ++
    (match sp.bootstrapConfigRef with
     | some r =>
       match r.name with
       | some nm =>
         match findComponent comps nm m.ns .KubeadmConfig with
         | some bootstrapConfig => [(i, bootstrapConfig)]
         | none => []
       | none => []
     | none => [])

/-- The attempts issued by an ownership scan (`buildMachineSetRelationships`
and friends): every map entry of the child kind owned by record `i`. -/
def attemptsOwned (comps : List Component) (i : Nat)
    (childType : ComponentType) (ownerKind : String) : List (Nat × Nat) :=
  ((idxIds comps).filter (fun j =>
    (getC comps j).type = childType ∧
      isOwnedBy (getC comps j) (getC comps i).name ownerKind)).map
    (fun j => (i, j))

/-- The attempts issued by `buildMetal3MachineRelationships`. -/
def attemptsMetal3Machine (comps : List Component) (i : Nat) :
    List (Nat × Nat) :=
  let m := getC comps i
  match m.spec with
  | none => []
  | some sp =>
    if sp.hostSelector then
      match findBareMetalHostBySelector comps m.ns with
      | some bmh => [(i, bmh)]
      | none => []
    else []

/-- The attempts issued by `buildClusterRelationships`. -/
def attemptsCluster (comps : List Component) (i : Nat) : List (Nat × Nat) :=
  let m := getC comps i
  match m.spec with
  | none => []
  | some sp =>
    (match sp.infrastructureRef with
     | some r =>
       match r.name with
       | some nm =>
         match findComponent comps nm m.ns .Metal3Cluster with
         | some infraCluster => [(i, infraCluster)]
         | none => []
       | none => []
     | none => []) ++
    (match sp.controlPlaneRef with
     | some r =>
       match r.name with
       | some nm =>
         match findComponent comps nm m.ns .KubeadmControlPlane with
         | some controlPlane => [(i, controlPlane)]
         | none => []
       | none => []
     | none => [])

/-- The attempts issued by `buildRelationships` for record `i`. -/
def attemptsOf (comps : List Component) (i : Nat) : List (Nat × Nat) :=
  match (getC comps i).type with
  | .Machine => attemptsMachine comps i
  | .MachineSet => attemptsOwned comps i .Machine "MachineSet"
  | .MachineDeployment => attemptsOwned comps i .MachineSet "MachineDeployment"
  | .Metal3Machine => attemptsMetal3Machine comps i
  | .Cluster => attemptsCluster comps i
  | .KubeadmControlPlane => attemptsOwned comps i .Machine "KubeadmControlPlane"
  | _ => []

/-- All attempts of one builder run, in execution order. -/
def attemptsAll (comps : List Component) : List (Nat × Nat) :=
  (List.range comps.length).foldl (fun acc i => acc ++ attemptsOf comps i) []

/-- Rank of a kind in the parent/child hierarchy: every edge the builder
can attempt goes from a strictly lower-ranked parent kind to a strictly
higher-ranked child kind. -/
def typeRank : ComponentType → Nat
  | .Cluster => 0
  | .MachineDeployment => 0
  | .MachineSet => 1
  | .KubeadmControlPlane => 1
  | .Metal3Cluster => 1
  | .Machine => 2
  | .Metal3Machine => 3
  | .KubeadmConfig => 3
  | .BareMetalHost => 4

/-- `Component.Parent` of record `c` in edge state `e`. -/
def parentD (e : Edges) (c : Nat) : Option Nat :=
  e.parent.getD c none

/-- `Component.Children` of record `p` in edge state `e`. -/
def childD (e : Edges) (p : Nat) : List Nat :=
  e.children.getD p []

/-- The structural invariant of the edge state: both edge lists cover all
records; a record appears in a parent's child list exactly once when its
parent field points there (and nowhere otherwise); and every edge
descends strictly in `typeRank`. -/
def EdgesInv (comps : List Component) (e : Edges) : Prop :=
  e.parent.length = comps.length ∧
  e.children.length = comps.length ∧
  (∀ p c : Nat, (childD e p).count c =
    if parentD e c = some p then 1 else 0) ∧
  (∀ p c : Nat, parentD e c = some p →
    typeRank (getC comps p).type < typeRank (getC comps c).type)

/-- Follow `parent` upward `k` times. -/
def iterParent (e : Edges) : Nat → Nat → Option Nat
  | 0, c => some c
  | k+1, c =>
    match parentD e c with
    | some p => iterParent e k p
    | none => none

/-- Is `a` a strict ancestor of `c` (reachable by following `parent` at
least once, within `n` steps)? -/
def ancestorB (e : Edges) (n a c : Nat) : Bool :=
  (List.range n).any (fun k => iterParent e (k+1) c == some a)

/-! ### Stability: specification-side descriptions of the sort

The comparator of `AnalyzeComponents` orders issues by a numeric rank
with the three values 0, 1, 2.  A stable sort of such a list is exactly
the concatenation of the three rank classes, each kept in input
order. -/

/-- The elements of rank `k`, in their relative order. -/
def rkFilter (rk : α → Nat) (k : Nat) (l : List α) : List α :=
  l.filter (fun x => rk x == k)

/-- The stable rank-sorted arrangement of a list whose ranks lie in
0..2: the rank-0 elements, then rank 1, then rank 2, each block in
input order. -/
def classConcat (rk : α → Nat) (l : List α) : List α :=
  rkFilter rk 0 l ++ rkFilter rk 1 l ++ rkFilter rk 2 l

/-- The sort key of the comparator handed to `sort.Slice` by
`AnalyzeComponents`. -/
def rkIssue (i : Issue) : Nat :=
  severityRank i.severity

/-- A condition of the given type with status "False" (counterexample
material). -/
def condC3 (t : String) : Condition :=
  ⟨t, "False", "", ""⟩

/-- A single Cluster record with 13 "False" conditions: six types
without a knowledge-base rule (generic Warning issues), then `Ready`
(a Critical rule), then six more without a rule.  Thirteen issues
exceed the insertion-sort cutoff of `pdqsort`, and the partition step
reorders the equal-severity Warning issues. -/
def compsC3 : List Component :=
  [{ name := "c", ns := "ns", type := .Cluster,
     conditions :=
       [condC3 "W1", condC3 "W2", condC3 "W3", condC3 "W4", condC3 "W5",
        condC3 "W6", condC3 "Ready", condC3 "W7", condC3 "W8", condC3 "W9",
        condC3 "WA", condC3 "WB", condC3 "WC"],
     status := .Degraded, spec := none, meta := none }]

/-- A single Cluster record with two "False" conditions: `Ready` (a
Critical rule) and one type without a knowledge-base rule (witness
material for the small-collection stability theorem). -/
def compsC3w : List Component :=
  [{ name := "c", ns := "ns", type := .Cluster,
     conditions := [condC3 "W1", condC3 "Ready"],
     status := .Degraded, spec := none, meta := none }]

/-! ## Permutation invariance of the sort

Every operation `sort.Slice` performs on the data is an index swap, so
each function of the embedding returns a permutation of its input, for
every fuel value. -/

theorem swapL_perm [DecidableEq α] (l : List α) (i j : Nat) :
    (swapL l i j).Perm l := by
  unfold swapL
  split
  case h_1 x y hi hj =>
    rw [List.get?_eq_getElem?] at hi hj
    obtain ⟨hi', hx⟩ := List.getElem?_eq_some.mp hi
    obtain ⟨hj', hy⟩ := List.getElem?_eq_some.mp hj
    subst hx hy
    rw [List.perm_iff_count]
    intro a
    have hj'' : j < (l.set i l[j]).length := by rw [List.length_set]; exact hj'
    rw [List.count_set _ _ _ _ hj'', List.count_set _ _ _ _ hi']
    rw [List.getElem_set]
    have memi : l[i] ∈ l := List.getElem_mem hi'
    have memj : l[j] ∈ l := List.getElem_mem hj'
    have ci : (l[i] == a) = true → 1 ≤ List.count a l := fun h =>
      List.one_le_count_iff.mpr ((eq_of_beq h) ▸ memi)
    have cj : (l[j] == a) = true → 1 ≤ List.count a l := fun h =>
      List.one_le_count_iff.mpr ((eq_of_beq h) ▸ memj)
    by_cases hij : i = j
    · subst hij
      simp only [if_pos rfl]
      by_cases h1 : (l[i] == a) = true <;> simp_all
    · rw [if_neg hij]
      by_cases h1 : (l[i] == a) = true <;> by_cases h2 : (l[j] == a) = true <;>
        simp_all
  case h_2 => exact List.Perm.refl _

theorem insertInner_perm [DecidableEq α] (less : α → α → Bool) (a : Nat) :
    ∀ (j : Nat) (l : List α), (insertInner less a l j).Perm l := by
  intro j
  induction j with
  | zero => intro l; rw [insertInner]
  | succ j ih =>
    intro l
    rw [insertInner]
    split
    · exact (ih _).trans (swapL_perm _ _ _)
    · exact List.Perm.refl _

theorem insertOuter_perm [DecidableEq α] (less : α → α → Bool) (a b : Nat) :
    ∀ (k : Nat) (l : List α) (i : Nat), (insertOuter less a b k l i).Perm l := by
  intro k
  induction k with
  | zero => intro l i; rw [insertOuter]
  | succ k ih =>
    intro l i
    rw [insertOuter]
    split
    · exact (ih _ _).trans (insertInner_perm less a i l)
    · exact List.Perm.refl _

theorem insertionSortGo_perm [DecidableEq α] (less : α → α → Bool)
    (l : List α) (a b : Nat) : (insertionSortGo less l a b).Perm l :=
  insertOuter_perm less a b (b+1) l (a+1)

theorem siftDownGo_perm [DecidableEq α] (less : α → α → Bool)
    (hi first : Nat) : ∀ (k : Nat) (l : List α) (root : Nat),
    (siftDownGo less hi first k l root).Perm l := by
  intro k
  induction k with
  | zero => intro l root; rw [siftDownGo]
  | succ k ih =>
    intro l root
    rw [siftDownGo]
    split
    · split
      · split
        · exact (ih _ _).trans (swapL_perm _ _ _)
        · exact List.Perm.refl _
      · split
        · exact (ih _ _).trans (swapL_perm _ _ _)
        · exact List.Perm.refl _
    · exact List.Perm.refl _

theorem heapBuild_perm [DecidableEq α] (less : α → α → Bool)
    (hi first : Nat) : ∀ (k : Nat) (l : List α),
    (heapBuild less hi first l k).Perm l := by
  intro k
  induction k with
  | zero => intro l; rw [heapBuild]
  | succ k ih =>
    intro l
    rw [heapBuild]
    exact (ih _).trans (siftDownGo_perm less hi first (hi+1) l k)

theorem heapPop_perm [DecidableEq α] (less : α → α → Bool) (first : Nat) :
    ∀ (k : Nat) (l : List α), (heapPop less first l k).Perm l := by
  intro k
  induction k with
  | zero => intro l; rw [heapPop]
  | succ k ih =>
    intro l
    rw [heapPop]
    exact (ih _).trans (((siftDownGo_perm less k first (k+1) _ 0).trans
      (swapL_perm _ _ _)))

theorem heapSortGo_perm [DecidableEq α] (less : α → α → Bool) (a b : Nat)
    (l : List α) : (heapSortGo less a b l).Perm l :=
  (heapPop_perm less a (b-a) _).trans (heapBuild_perm less (b-a) a _ l)

theorem reverseRangeGo_perm [DecidableEq α] :
    ∀ (k : Nat) (l : List α) (i j : Nat), (reverseRangeGo k l i j).Perm l := by
  intro k
  induction k with
  | zero => intro l i j; rw [reverseRangeGo]
  | succ k ih =>
    intro l i j
    rw [reverseRangeGo]
    split
    · exact (ih _ _ _).trans (swapL_perm _ _ _)
    · exact List.Perm.refl _

theorem shiftLeftGo_perm [DecidableEq α] (less : α → α → Bool) :
    ∀ (j : Nat) (l : List α), (shiftLeftGo less l j).Perm l := by
  intro j
  induction j with
  | zero => intro l; rw [shiftLeftGo]
  | succ j ih =>
    intro l
    rw [shiftLeftGo]
    split
    · exact (ih _).trans (swapL_perm _ _ _)
    · exact List.Perm.refl _

theorem shiftRightGo_perm [DecidableEq α] (less : α → α → Bool) (b : Nat) :
    ∀ (k : Nat) (l : List α) (j : Nat), (shiftRightGo less b k l j).Perm l := by
  intro k
  induction k with
  | zero => intro l j; rw [shiftRightGo]
  | succ k ih =>
    intro l j
    rw [shiftRightGo]
    split
    · split
      · exact (ih _ _).trans (swapL_perm _ _ _)
      · exact List.Perm.refl _
    · exact List.Perm.refl _

theorem partialInsertionLoop_perm [DecidableEq α] (less : α → α → Bool)
    (a b : Nat) : ∀ (steps : Nat) (l : List α) (i : Nat),
    (partialInsertionLoop less a b l i steps).1.Perm l := by
  intro steps
  induction steps with
  | zero => intro l i; rw [partialInsertionLoop]
  | succ steps ih =>
    intro l i
    rw [partialInsertionLoop]
    split
    · exact List.Perm.refl _
    · split
      · exact List.Perm.refl _
      · refine (ih _ _).trans ?_
        split
        · split
          · exact (shiftRightGo_perm _ _ _ _ _).trans
              ((shiftLeftGo_perm _ _ _).trans (swapL_perm _ _ _))
          · exact (shiftRightGo_perm _ _ _ _ _).trans (swapL_perm _ _ _)
        · split
          · exact (shiftLeftGo_perm _ _ _).trans (swapL_perm _ _ _)
          · exact swapL_perm _ _ _

theorem partialInsertionSortGo_perm [DecidableEq α] (less : α → α → Bool)
    (a b : Nat) (l : List α) :
    (partialInsertionSortGo less a b l).1.Perm l :=
  partialInsertionLoop_perm less a b 5 l (a+1)

theorem partLoop_perm [DecidableEq α] (less : α → α → Bool) (a : Nat) :
    ∀ (fuel : Nat) (l : List α) (i j : Nat),
    (partLoop less a fuel l i j).1.Perm l := by
  intro fuel
  induction fuel with
  | zero => intro l i j; exact swapL_perm _ _ _
  | succ fuel ih =>
    intro l i j
    rw [partLoop]
    split
    · exact swapL_perm _ _ _
    · exact (ih _ _ _).trans (swapL_perm _ _ _)

theorem partitionGo_perm [DecidableEq α] (less : α → α → Bool)
    (a b pivot : Nat) (l : List α) :
    (partitionGo less a b pivot l).1.Perm l := by
  rw [partitionGo]
  split
  · exact (swapL_perm _ _ _).trans (swapL_perm _ _ _)
  · exact ((partLoop_perm less a b _ _ _).trans (swapL_perm _ _ _)).trans
      (swapL_perm _ _ _)

theorem partEqLoop_perm [DecidableEq α] (less : α → α → Bool) (a : Nat) :
    ∀ (fuel : Nat) (l : List α) (i j : Nat),
    (partEqLoop less a fuel l i j).1.Perm l := by
  intro fuel
  induction fuel with
  | zero => intro l i j; rw [partEqLoop]
  | succ fuel ih =>
    intro l i j
    rw [partEqLoop]
    split
    · exact List.Perm.refl _
    · exact (ih _ _ _).trans (swapL_perm _ _ _)

theorem partitionEqualGo_perm [DecidableEq α] (less : α → α → Bool)
    (a b pivot : Nat) (l : List α) :
    (partitionEqualGo less a b pivot l).1.Perm l :=
  (partEqLoop_perm less a b _ _ _).trans (swapL_perm _ _ _)

theorem breakLoop_perm [DecidableEq α] (a length modulus idx : Nat) :
    ∀ (k : Nat) (l : List α) (r : Nat),
    (breakLoop a length modulus idx l r k).Perm l := by
  intro k
  induction k with
  | zero => intro l r; rw [breakLoop]
  | succ k ih =>
    intro l r
    rw [breakLoop]
    exact (ih _ _).trans (swapL_perm _ _ _)

theorem breakPatternsGo_perm [DecidableEq α] (l : List α) (a b : Nat) :
    (breakPatternsGo l a b).Perm l := by
  rw [breakPatternsGo]
  split
  · exact breakLoop_perm _ _ _ _ 3 l _
  · exact List.Perm.refl _

set_option maxHeartbeats 2000000 in
set_option maxRecDepth 4000 in
theorem pdqsortGo_perm [DecidableEq α] (less : α → α → Bool) :
    ∀ (fuel : Nat) (l : List α) (a b limit : Nat) (wb wp : Bool),
    (pdqsortGo less fuel l a b limit wb wp).Perm l := by
  intro fuel
  induction fuel with
  | zero => intro l a b limit wb wp; rw [pdqsortGo]
  | succ fuel ih =>
    intro l a b limit wb wp
    simp only [pdqsortGo]
    repeat
      first
      | exact List.Perm.refl _
      | exact breakPatternsGo_perm l a b
      | exact insertionSortGo_perm less l a b
      | exact heapSortGo_perm less a b l
      | refine (ih _ _ _ _ _ _).trans ?_
      | refine (partitionEqualGo_perm less a b _ _).trans ?_
      | refine (partitionGo_perm less a b _ _).trans ?_
      | refine (partialInsertionSortGo_perm less a b _).trans ?_
      | refine (reverseRangeGo_perm _ _ a (b-1)).trans ?_
      | split

theorem sortSliceGo_perm [DecidableEq α] (less : α → α → Bool)
    (l : List α) : (sortSliceGo less l).Perm l :=
  pdqsortGo_perm less _ l 0 l.length (bitsLen l.length) true true

/-! ## Claim C1: status derivation with competing Ready / InfrastructureReady
conditions -/

/-- The first scan loop ignores conditions that are not decisive. -/
theorem scanCritical_skip (pre l : List Condition)
    (h : ∀ c ∈ pre, decisive c = false) :
    scanCritical (pre ++ l) = scanCritical l := by
  induction pre with
  | nil => rfl
  | cons c pre ih =>
    have hc : decisive c = false := h c (List.mem_cons_self c pre)
    have hrest : ∀ c' ∈ pre, decisive c' = false := fun c' hc' =>
      h c' (List.mem_cons_of_mem c hc')
    simp only [decisive, Bool.or_eq_false_iff, Bool.and_eq_false_iff] at hc
    rw [List.cons_append, scanCritical]
    rcases hc with ⟨hc₁, hc₂⟩
    split
    case isTrue hra =>
      have hF : (c.status == "False") = false ∧ (c.status == "True") = false := by
        rcases hc₁ with h' | h'
        · exfalso
          rcases hra with h'' | h'' <;> simp [h''] at h'
        · exact h'
      have h1 : ¬ c.status = "False" := by simpa using hF.1
      have h2 : ¬ c.status = "True" := by simpa using hF.2
      rw [if_neg h1, if_neg h2]
      exact ih hrest
    case isFalse hra =>
      split
      case isTrue hibc =>
        have : c.status ≠ "False" := by
          rcases hc₂ with h' | h'
          · exfalso
            rcases hibc with h'' | h'' | h'' <;> simp [h''] at h'
          · simpa using h'
        rw [if_neg this]
        exact ih hrest
      case isFalse => exact ih hrest

/-- Claim C1 (counterexample): a record whose conditions are
`InfrastructureReady=False` followed by `Ready=True` derives `Degraded`,
not `Healthy` — the first scan loop of `determineComponentStatus` returns
at the first decisive condition, so the relative order of the two
conditions decides, contrary to the claim's "in either relative order". -/
theorem claim_C1_counterexample :
    determineComponentStatus
      [⟨"InfrastructureReady", "False", "", ""⟩, ⟨"Ready", "True", "", ""⟩] =
      ComponentStatus.Degraded := by decide

/-- Claim C1 (amended): for a record containing both `Ready=True` and
`InfrastructureReady=False`, the verdict is decided by whichever comes
first in the single scan: if every earlier condition is non-decisive,
`Ready=True` first gives `Healthy` and `InfrastructureReady=False` first
gives `Degraded`. -/
theorem claim_C1_amended (pre post : List Condition) (r₁ m₁ r₂ m₂ : String)
    (h : ∀ c ∈ pre, decisive c = false) :
    determineComponentStatus
        (pre ++ ⟨"Ready", "True", r₁, m₁⟩ :: post) = .Healthy ∧
    determineComponentStatus
        (pre ++ ⟨"InfrastructureReady", "False", r₂, m₂⟩ :: post) =
      .Degraded := by
  constructor
  · rw [determineComponentStatus]
    rw [if_neg (by simp)]
    rw [scanCritical_skip pre _ h]
    rw [scanCritical]
    simp
  · rw [determineComponentStatus]
    rw [if_neg (by simp)]
    rw [scanCritical_skip pre _ h]
    rw [scanCritical]
    simp

/-- Witness for the amended claim C1 at a concrete record: one
non-decisive condition in front, in both orders. -/
theorem claim_C1_witness :
    (∀ c ∈ [(⟨"NodeHealthy", "Unknown", "", ""⟩ : Condition)],
      decisive c = false) ∧
    determineComponentStatus
        [⟨"NodeHealthy", "Unknown", "", ""⟩, ⟨"Ready", "True", "", ""⟩] =
      .Healthy ∧
    determineComponentStatus
        [⟨"NodeHealthy", "Unknown", "", ""⟩,
         ⟨"InfrastructureReady", "False", "", ""⟩] = .Degraded :=
  ⟨by decide,
   claim_C1_amended [⟨"NodeHealthy", "Unknown", "", ""⟩] [] "" "" "" ""
     (by decide)⟩

/-! ## Claim C5: selector-based BareMetalHost linking -/

/-- Claim C5 (counterexample): records `[m1, m2, h1, h2]` — two
Metal3Machines with a `hostSelector` and two BareMetalHosts, all in
namespace "ns".  The builder links m1 (index 0) to h1 (index 2); for m2
(index 1) `findBareMetalHostBySelector` again returns h1, which is
already claimed, so `setParentChild` is a no-op and m2 gets no edge even
though the unclaimed h2 (index 3) exists.  The claim demands the edge
m2 → h2, i.e. `parent[3] = some 1`; the code leaves `parent[3] = none`. -/
theorem claim_C5_counterexample :
    buildDependencyTree
      [⟨"m1", "ns", .Metal3Machine, [], .Unknown,
        some ⟨none, none, none, none, true⟩, none⟩,
       ⟨"m2", "ns", .Metal3Machine, [], .Unknown,
        some ⟨none, none, none, none, true⟩, none⟩,
       ⟨"h1", "ns", .BareMetalHost, [], .Unknown, none, none⟩,
       ⟨"h2", "ns", .BareMetalHost, [], .Unknown, none, none⟩]
      (emptyEdges 4) =
    (⟨[none, none, some 0, none], [[2], [], [], []]⟩, [0, 1, 3]) := by decide

/-- Claim C5 (amended): for a Metal3Machine record `i` whose spec has a
`hostSelector`, the builder looks up the first BareMetalHost record of
the same namespace in map-iteration order, regardless of whether that
host is already claimed; the edge is added exactly when that first host
is still unclaimed.  When the first host of the namespace is claimed, no
edge is added even if another unclaimed host exists (see the
counterexample); when no host exists in the namespace, no edge is
added. -/
theorem claim_C5_amended (comps : List Component) (i : Nat) (e : Edges)
    (sp : SpecFields) (hspec : (getC comps i).spec = some sp)
    (hsel : sp.hostSelector = true) :
    buildMetal3MachineRelationships comps i e =
      match (idxIds comps).find? (fun j =>
          (getC comps j).type == ComponentType.BareMetalHost &&
            (getC comps j).ns == (getC comps i).ns) with
      | none => e
      | some h =>
        if e.parent.getD h none = none then
          ⟨e.parent.set h (some i),
           e.children.set i (e.children.getD i [] ++ [h])⟩
        else e := by
  rw [buildMetal3MachineRelationships]
  rw [hspec]
  simp only [hsel, if_true]
  rw [findBareMetalHostBySelector]
  split <;> rename_i heq <;> rw [heq]
  rw [setParentChild]

/-- Witness for the amended claim C5 at a concrete pair of records: a
Metal3Machine with a `hostSelector` and one unclaimed BareMetalHost. -/
theorem claim_C5_witness :
    (getC [⟨"m1", "ns", .Metal3Machine, [], .Unknown,
             some ⟨none, none, none, none, true⟩, none⟩,
           ⟨"h1", "ns", .BareMetalHost, [], .Unknown, none, none⟩] 0).spec =
        some ⟨none, none, none, none, true⟩ ∧
    (⟨none, none, none, none, true⟩ : SpecFields).hostSelector = true ∧
    buildMetal3MachineRelationships
        [⟨"m1", "ns", .Metal3Machine, [], .Unknown,
          some ⟨none, none, none, none, true⟩, none⟩,
         ⟨"h1", "ns", .BareMetalHost, [], .Unknown, none, none⟩] 0
        (emptyEdges 2) =
      match (idxIds
          [⟨"m1", "ns", .Metal3Machine, [], .Unknown,
            some ⟨none, none, none, none, true⟩, none⟩,
           ⟨"h1", "ns", .BareMetalHost, [], .Unknown, none, none⟩]).find?
          (fun j =>
            (getC [⟨"m1", "ns", .Metal3Machine, [], .Unknown,
                     some ⟨none, none, none, none, true⟩, none⟩,
                   ⟨"h1", "ns", .BareMetalHost, [], .Unknown, none,
                    none⟩] j).type == ComponentType.BareMetalHost &&
              (getC [⟨"m1", "ns", .Metal3Machine, [], .Unknown,
                       some ⟨none, none, none, none, true⟩, none⟩,
                     ⟨"h1", "ns", .BareMetalHost, [], .Unknown, none,
                      none⟩] j).ns ==
                (getC [⟨"m1", "ns", .Metal3Machine, [], .Unknown,
                         some ⟨none, none, none, none, true⟩, none⟩,
                       ⟨"h1", "ns", .BareMetalHost, [], .Unknown, none,
                        none⟩] 0).ns) with
      | none => emptyEdges 2
      | some h =>
        if (emptyEdges 2).parent.getD h none = none then
          ⟨(emptyEdges 2).parent.set h (some 0),
           (emptyEdges 2).children.set 0
             ((emptyEdges 2).children.getD 0 [] ++ [h])⟩
        else emptyEdges 2 :=
  ⟨by decide, rfl,
   claim_C5_amended _ 0 (emptyEdges 2) ⟨none, none, none, none, true⟩
     (by decide) rfl⟩

/-! ## Characterization of the advisory scan -/

theorem bump_apply [DecidableEq σ] (f : σ → Nat) (s t : σ) :
    bump f s t = f t + (if t = s then 1 else 0) := by
  rw [bump]
  split <;> simp

theorem range_map_getC (comps : List Component) :
    (List.range comps.length).map (fun i => getC comps i) = comps := by
  apply List.ext_getElem
  · simp
  · intro i h₁ h₂
    simp only [List.getElem_map, List.getElem_range]
    rw [getC, List.getD_eq_getElem]

/-- `analyzeComponent` emits exactly the issues `mkIssue` describes, one
per "False" condition, in condition order. -/
theorem analyzeComponent_eq (comps : List Component) (E : Edges) (i : Nat) :
    analyzeComponent comps E i =
      ((getC comps i).conditions.filter (fun c => c.status == "False")).map
        (mkIssue comps E i) := by
  have h : ∀ (conds : List Condition) (acc : List Issue),
      conds.foldl (fun issues cond =>
        if cond.status == "False" then
          match kbLookup ((getC comps i).type.str ++ "." ++ cond.type ++ "." ++
              cond.status) with
          | some knowledge =>
            issues ++
              [{ compIdx := i, condition := cond,
                 severity := knowledge.severity,
                 description := knowledge.condition,
                 cause := enhanceCause knowledge.cause cond,
                 resolution := enhanceResolution knowledge.resolution cond,
                 dependencies :=
                   findDependencies comps E i knowledge.dependencies }]
          | none =>
            issues ++
              [{ compIdx := i, condition := cond,
                 severity := .Warning,
                 description :=
                   (getC comps i).type.str ++ " " ++ cond.type ++ " is " ++
                     cond.status,
                 cause := buildGenericCause cond,
                 resolution := buildGenericResolution (getC comps i) cond,
                 dependencies := [] }]
        else issues) acc =
      acc ++ (conds.filter (fun c => c.status == "False")).map
        (mkIssue comps E i) := by
    intro conds
    induction conds with
    | nil => intro acc; simp
    | cons c rest ih =>
      intro acc
      rw [List.foldl_cons, List.filter_cons]
      by_cases hc : (c.status == "False") = true
      · rw [if_pos hc, if_pos hc, ih, List.map_cons]
        rw [mkIssue]
        split <;> simp
      · rw [if_neg hc, if_neg hc, ih]
  exact (h _ []).trans (by simp)

theorem sevFoldCount (L : List Issue) :
    ∀ (vc : ConditionSeverity → Nat) (v : ConditionSeverity),
    (L.foldl (fun vc iss => bump vc iss.severity) vc) v =
      vc v + (L.map Issue.severity).count v := by
  induction L with
  | nil => intro vc v; simp
  | cons iss rest ih =>
    intro vc v
    rw [List.foldl_cons, ih, List.map_cons, List.count_cons, bump_apply]
    simp only [beq_iff_eq]
    by_cases h : v = iss.severity <;> simp [h] <;>
      first
      | omega
      | exact fun q => h q.symm

/-- The accumulating loop of `AnalyzeComponents`, characterised: status
counts, scan-ordered issue list and severity counts. -/
theorem analyzeScan_spec (comps : List Component) (E : Edges) :
    (∀ s, (analyzeScan comps E).1 s = (comps.map Component.status).count s) ∧
    (analyzeScan comps E).2.1 = scanIssues comps E ∧
    (∀ v, (analyzeScan comps E).2.2 v =
      ((scanIssues comps E).map Issue.severity).count v) := by
  have main : ∀ (L : List Nat)
      (acc : (ComponentStatus → Nat) × List Issue × (ConditionSeverity → Nat)),
      L.foldl (fun acc i =>
        (bump acc.1 (getC comps i).status,
         acc.2.1 ++ analyzeComponent comps E i,
         (analyzeComponent comps E i).foldl
           (fun vc iss => bump vc iss.severity) acc.2.2)) acc =
      ((fun s => acc.1 s +
          (L.map (fun i => (getC comps i).status)).count s),
       acc.2.1 ++ ((L.map (analyzeComponent comps E)).flatten),
       (fun v => acc.2.2 v +
          (((L.map (analyzeComponent comps E)).flatten).map
            Issue.severity).count v)) := by
    intro L
    induction L with
    | nil => intro acc; simp
    | cons j rest ih =>
      intro acc
      rw [List.foldl_cons, ih]
      refine Prod.ext ?_ (Prod.ext ?_ ?_)
      · funext s
        simp only [List.map_cons, List.count_cons, bump_apply, beq_iff_eq]
        by_cases h : s = (getC comps j).status <;> simp [h] <;>
          first
          | omega
          | exact fun q => h q.symm
      · simp
      · funext v
        simp only [List.map_cons, List.flatten_cons, List.map_append,
          List.count_append, sevFoldCount]
        omega
  have happ := main (List.range comps.length) ((fun _ => 0), [], (fun _ => 0))
  have hmap : (List.range comps.length).map (fun i => (getC comps i).status) =
      comps.map Component.status := by
    conv_rhs => rw [← range_map_getC comps]
    rw [List.map_map]
    rfl
  simp only [analyzeScan]
  rw [happ]
  refine ⟨fun s => ?_, ?_, fun v => ?_⟩
  · show (0:Nat) +
      ((List.range comps.length).map (fun i => (getC comps i).status)).count s =
      (comps.map Component.status).count s
    rw [hmap]
    omega
  · show ([] : List Issue) ++
      ((List.range comps.length).map (analyzeComponent comps E)).flatten =
      scanIssues comps E
    simp [scanIssues]
  · show (0:Nat) +
      ((((List.range comps.length).map (analyzeComponent comps E)).flatten).map
        Issue.severity).count v =
      ((scanIssues comps E).map Issue.severity).count v
    simp [scanIssues]

theorem issues_eq_sorted_scan (comps : List Component) (E : Edges) :
    (analyzeComponents comps E).issues =
      sortSliceGo issueLess (scanIssues comps E) := by
  simp only [analyzeComponents]
  rw [(analyzeScan_spec comps E).2.1]

theorem statusCounts_eq (comps : List Component) (E : Edges) (s : ComponentStatus) :
    (analyzeComponents comps E).summary.statusCounts s =
      (comps.map Component.status).count s := by
  simp only [analyzeComponents]
  exact (analyzeScan_spec comps E).1 s

theorem severityCounts_eq (comps : List Component) (E : Edges)
    (v : ConditionSeverity) :
    (analyzeComponents comps E).summary.severityCounts v =
      ((scanIssues comps E).map Issue.severity).count v := by
  simp only [analyzeComponents]
  exact (analyzeScan_spec comps E).2.2 v

theorem clusterHealth_eq (comps : List Component) (E : Edges) :
    (analyzeComponents comps E).summary.clusterHealth =
      determineClusterHealth (analyzeComponents comps E).summary.statusCounts
        (analyzeComponents comps E).summary.severityCounts := by
  simp only [analyzeComponents]

/-! ## Claim C4: the overall health verdict -/

/-- Claim C4: the cluster health verdict is computed in the fixed
precedence order — Failed when a Critical issue or a Failed record
exists, else Degraded when a Warning issue or a Degraded record exists,
else Pending when a Pending record exists, else Healthy. -/
theorem claim_C4 (comps : List Component) (E : Edges) :
    (analyzeComponents comps E).summary.clusterHealth =
      (if (∃ iss ∈ (analyzeComponents comps E).issues,
            iss.severity = ConditionSeverity.Critical) ∨
          (∃ c ∈ comps, c.status = ComponentStatus.Failed) then
        ComponentStatus.Failed
       else if (∃ iss ∈ (analyzeComponents comps E).issues,
            iss.severity = ConditionSeverity.Warning) ∨
          (∃ c ∈ comps, c.status = ComponentStatus.Degraded) then
        ComponentStatus.Degraded
       else if ∃ c ∈ comps, c.status = ComponentStatus.Pending then
        ComponentStatus.Pending
       else ComponentStatus.Healthy) := by
  have hsev : ∀ v, ((analyzeComponents comps E).summary.severityCounts v > 0 ↔
      ∃ iss ∈ (analyzeComponents comps E).issues, iss.severity = v) := by
    intro v
    rw [severityCounts_eq, issues_eq_sorted_scan]
    rw [gt_iff_lt, List.count_pos_iff]
    rw [List.mem_map]
    constructor
    · rintro ⟨iss, hm, hv⟩
      exact ⟨iss, (sortSliceGo_perm issueLess (scanIssues comps E)).mem_iff.mpr
        hm, hv⟩
    · rintro ⟨iss, hm, hv⟩
      exact ⟨iss, (sortSliceGo_perm issueLess (scanIssues comps E)).mem_iff.mp
        hm, hv⟩
  have hsta : ∀ st, ((analyzeComponents comps E).summary.statusCounts st > 0 ↔
      ∃ c ∈ comps, c.status = st) := by
    intro st
    rw [statusCounts_eq, gt_iff_lt, List.count_pos_iff, List.mem_map]
  rw [clusterHealth_eq, determineClusterHealth]
  simp only [hsev, hsta]

/-! ## Claim C10: one issue per False condition, consistent summary -/

theorem statusCount_total (l : List ComponentStatus) :
    l.count .Healthy + l.count .Degraded + l.count .Failed +
      l.count .Pending + l.count .Unknown = l.length := by
  induction l with
  | nil => rfl
  | cons h t ih =>
    cases h <;> simp [List.count_cons] <;> omega

theorem severityCount_total (l : List ConditionSeverity) :
    l.count .Critical + l.count .Warning + l.count .Info = l.length := by
  induction l with
  | nil => rfl
  | cons h t ih =>
    cases h <;> simp [List.count_cons] <;> omega

theorem mkIssue_pair (comps : List Component) (E : Edges) (i : Nat) :
    (fun c => ((mkIssue comps E i c).compIdx, (mkIssue comps E i c).condition))
      = fun c : Condition => (i, c) := by
  funext c
  rw [mkIssue]
  split <;> rfl

theorem scanIssues_pairs (comps : List Component) (E : Edges) :
    (scanIssues comps E).map (fun iss => (iss.compIdx, iss.condition)) =
      falseConditionsOf comps := by
  rw [scanIssues, falseConditionsOf, List.map_flatten, List.map_map]
  congr 1
  apply List.map_congr_left
  intro i _
  show (analyzeComponent comps E i).map _ = _
  rw [analyzeComponent_eq, List.map_map]
  apply List.map_congr_left
  intro c _
  simp only [Function.comp_apply]
  rw [mkIssue]
  split <;> rfl

/-- Claim C10: `analyze` returns exactly one issue per condition in state
"False" and none for other conditions (the issue list is a permutation of
the False-condition pairs), `totalRecords` is the input size, the status
counts sum to `totalRecords`, and the severity counts sum to the number
of emitted issues. -/
theorem claim_C10 (comps : List Component) (E : Edges) :
    (analyzeComponents comps E).summary.totalComponents = comps.length ∧
    ((analyzeComponents comps E).summary.statusCounts .Healthy +
     (analyzeComponents comps E).summary.statusCounts .Degraded +
     (analyzeComponents comps E).summary.statusCounts .Failed +
     (analyzeComponents comps E).summary.statusCounts .Pending +
     (analyzeComponents comps E).summary.statusCounts .Unknown) =
      comps.length ∧
    ((analyzeComponents comps E).summary.severityCounts .Critical +
     (analyzeComponents comps E).summary.severityCounts .Warning +
     (analyzeComponents comps E).summary.severityCounts .Info) =
      (analyzeComponents comps E).issues.length ∧
    ((analyzeComponents comps E).issues.map
        (fun iss => (iss.compIdx, iss.condition))).Perm
      (falseConditionsOf comps) := by
  refine ⟨rfl, ?_, ?_, ?_⟩
  · simp only [statusCounts_eq]
    rw [statusCount_total]
    simp
  · simp only [severityCounts_eq]
    rw [severityCount_total, issues_eq_sorted_scan]
    rw [List.length_map, (sortSliceGo_perm issueLess
      (scanIssues comps E)).length_eq]
  · rw [issues_eq_sorted_scan, ← scanIssues_pairs comps E]
    exact (sortSliceGo_perm issueLess (scanIssues comps E)).map _

/-! ## Claim C9: an all-True record set is healthy and issue-free -/

theorem scanCritical_allTrue (conds : List Condition)
    (h : ∀ c ∈ conds, c.status = "True") :
    scanCritical conds = none ∨ scanCritical conds = some .Healthy := by
  induction conds with
  | nil => exact Or.inl rfl
  | cons c rest ih =>
    have hc : c.status = "True" := h c (List.mem_cons_self c rest)
    have hrest := ih (fun c' hc' => h c' (List.mem_cons_of_mem c hc'))
    rw [scanCritical]
    split
    · rw [hc]
      simp
    · split
      · rw [hc]
        simpa using hrest
      · exact hrest

theorem determineComponentStatus_allTrue (conds : List Condition)
    (h : ∀ c ∈ conds, c.status = "True") :
    determineComponentStatus conds = .Healthy ∨
      determineComponentStatus conds = .Unknown := by
  rw [determineComponentStatus]
  split
  · exact Or.inr rfl
  · rcases scanCritical_allTrue conds h with hs | hs <;> rw [hs]
    · rw [if_neg, if_neg]
      · exact Or.inl rfl
      · simp only [List.any_eq_true, not_exists]
        intro c
        rintro ⟨hm, hq⟩
        rw [h c hm] at hq
        exact absurd hq (by decide)
      · simp only [List.any_eq_true, not_exists]
        intro c
        rintro ⟨hm, hq⟩
        rw [h c hm] at hq
        exact absurd hq (by decide)
    · exact Or.inl rfl

theorem sortSliceGo_nil : sortSliceGo issueLess [] = [] := rfl

/-- Claim C9: when every condition of every record has state "True" (and
each record's status is derived from its conditions per rule 4.1), the
analysis returns an empty issue list and overall health Healthy. -/
theorem claim_C9 (comps : List Component) (E : Edges)
    (hstat : ∀ c ∈ comps, c.status = determineComponentStatus c.conditions)
    (htrue : ∀ c ∈ comps, ∀ cond ∈ c.conditions, cond.status = "True") :
    (analyzeComponents comps E).issues = [] ∧
    (analyzeComponents comps E).summary.clusterHealth =
      ComponentStatus.Healthy := by
  have hscan : scanIssues comps E = [] := by
    rw [scanIssues]
    rw [List.flatten_eq_nil_iff]
    intro xs hxs
    rw [List.mem_map] at hxs
    obtain ⟨i, hi, heq⟩ := hxs
    rw [List.mem_range] at hi
    have hmem : getC comps i ∈ comps := by
      rw [getC, List.getD_eq_getElem _ _ hi]
      exact List.getElem_mem hi
    rw [analyzeComponent_eq] at heq
    have hfil : (getC comps i).conditions.filter
        (fun c => c.status == "False") = [] := by
      rw [List.filter_eq_nil_iff]
      intro cond hcond
      have := htrue _ hmem cond hcond
      rw [this]
      decide
    rw [hfil] at heq
    exact heq.symm
  have hiss : (analyzeComponents comps E).issues = [] := by
    rw [issues_eq_sorted_scan, hscan, sortSliceGo_nil]
  refine ⟨hiss, ?_⟩
  have hnost : ∀ st, st = ComponentStatus.Failed ∨
      st = ComponentStatus.Degraded ∨ st = ComponentStatus.Pending →
      (analyzeComponents comps E).summary.statusCounts st = 0 := by
    intro st hst
    rw [statusCounts_eq, List.count_eq_zero]
    intro hmem
    rw [List.mem_map] at hmem
    obtain ⟨c, hc, hcs⟩ := hmem
    rcases determineComponentStatus_allTrue c.conditions
        (htrue c hc) with hh | hh <;>
      rw [hstat c hc, hh] at hcs <;>
      rcases hst with h | h | h <;> rw [← hcs] at h <;> exact absurd h (by decide)
  have hsev0 : ∀ v, (analyzeComponents comps E).summary.severityCounts v = 0 := by
    intro v
    rw [severityCounts_eq, hscan]
    rfl
  rw [clusterHealth_eq, determineClusterHealth]
  rw [if_neg, if_neg, if_neg]
  · simp [hnost]
  · simp [hnost, hsev0]
  · simp [hnost, hsev0]

/-- Witness for claim C9: one Cluster record with a single `Ready=True`
condition and derived status Healthy. -/
theorem claim_C9_witness :
    (∀ c ∈ [(⟨"c1", "ns", .Cluster, [⟨"Ready", "True", "", ""⟩],
        .Healthy, none, none⟩ : Component)],
      c.status = determineComponentStatus c.conditions) ∧
    (∀ c ∈ [(⟨"c1", "ns", .Cluster, [⟨"Ready", "True", "", ""⟩],
        .Healthy, none, none⟩ : Component)],
      ∀ cond ∈ c.conditions, cond.status = "True") ∧
    (analyzeComponents
        [⟨"c1", "ns", .Cluster, [⟨"Ready", "True", "", ""⟩],
          .Healthy, none, none⟩] (emptyEdges 1)).issues = [] ∧
    (analyzeComponents
        [⟨"c1", "ns", .Cluster, [⟨"Ready", "True", "", ""⟩],
          .Healthy, none, none⟩] (emptyEdges 1)).summary.clusterHealth =
      ComponentStatus.Healthy :=
  ⟨by decide, by decide,
   claim_C9 _ (emptyEdges 1) (by decide) (by decide)⟩

/-! ## Claim C7: the generic-issue path for unknown keys -/

/-- Claim C7: for every condition in state "False" whose
`(kind, conditionType)` key is absent from the knowledge base, the scan
emits a generic issue of severity Warning whose cause is built from the
condition's reason/message (or the fixed placeholder when both are
empty) and whose resolution starts with the generic template instructing
inspection of the record and its recent events; the engine is a total
function, so an unknown key can never raise an error. -/
theorem claim_C7 (comps : List Component) (E : Edges) (i : Nat)
    (cond : Condition)
    (hmem : cond ∈ (getC comps i).conditions)
    (hfalse : cond.status = "False")
    (hkb : kbLookup ((getC comps i).type.str ++ "." ++ cond.type ++ "." ++
      cond.status) = none) :
    ∃ iss ∈ analyzeComponent comps E i,
      iss.compIdx = i ∧ iss.condition = cond ∧
      iss.severity = ConditionSeverity.Warning ∧
      iss.description = (getC comps i).type.str ++ " " ++ cond.type ++
        " is " ++ cond.status ∧
      iss.cause =
        (if cond.reason ≠ "" ∧ cond.message ≠ "" then
          "Reason: " ++ cond.reason ++ "\nDetails: " ++ cond.message
        else if cond.reason ≠ "" then "Reason: " ++ cond.reason
        else if cond.message ≠ "" then "Details: " ++ cond.message
        else "Unknown cause - no additional information available") ∧
      ∃ t, iss.resolution = genericResolutionBase (getC comps i) ++ t := by
  refine ⟨mkIssue comps E i cond, ?_, ?_⟩
  · rw [analyzeComponent_eq, List.mem_map]
    exact ⟨cond, List.mem_filter.mpr ⟨hmem, by simp [hfalse]⟩, rfl⟩
  · have hmk : mkIssue comps E i cond =
        { compIdx := i, condition := cond,
          severity := .Warning,
          description := (getC comps i).type.str ++ " " ++ cond.type ++
            " is " ++ cond.status,
          cause := buildGenericCause cond,
          resolution := buildGenericResolution (getC comps i) cond,
          dependencies := [] } := by
      rw [mkIssue, hkb]
    rw [hmk]
    refine ⟨rfl, rfl, rfl, rfl, ?_, ?_⟩
    · rw [buildGenericCause]
    · refine ⟨if getSpecificGuidanceFromReason cond.reason cond.message ≠ ""
        then "\n\n💡 Specific guidance based on error:\n" ++
          getSpecificGuidanceFromReason cond.reason cond.message
        else "", ?_⟩
      show buildGenericResolution (getC comps i) cond = _
      rw [buildGenericResolution]
      split <;> rename_i hg
      · rw [String.append_assoc]
      · rw [String.append_empty]

/-- Witness for claim C7: a Cluster record with an unknown condition type
`NodeOk` in state "False". -/
theorem claim_C7_witness :
    (⟨"NodeOk", "False", "", ""⟩ : Condition) ∈
      (getC [⟨"c1", "ns", .Cluster, [⟨"NodeOk", "False", "", ""⟩],
        .Degraded, none, none⟩] 0).conditions ∧
    (⟨"NodeOk", "False", "", ""⟩ : Condition).status = "False" ∧
    kbLookup ((getC [⟨"c1", "ns", .Cluster, [⟨"NodeOk", "False", "", ""⟩],
        .Degraded, none, none⟩] 0).type.str ++ "." ++ "NodeOk" ++ "." ++
        "False") = none ∧
    ∃ iss ∈ analyzeComponent
        [⟨"c1", "ns", .Cluster, [⟨"NodeOk", "False", "", ""⟩],
          .Degraded, none, none⟩] (emptyEdges 1) 0,
      iss.compIdx = 0 ∧ iss.condition = ⟨"NodeOk", "False", "", ""⟩ ∧
      iss.severity = ConditionSeverity.Warning ∧
      iss.description = (getC [⟨"c1", "ns", .Cluster,
          [⟨"NodeOk", "False", "", ""⟩], .Degraded, none, none⟩] 0).type.str
        ++ " " ++ "NodeOk" ++ " is " ++ "False" ∧
      iss.cause =
        (if ("" : String) ≠ "" ∧ ("" : String) ≠ "" then
          "Reason: " ++ "" ++ "\nDetails: " ++ ""
        else if ("" : String) ≠ "" then "Reason: " ++ ""
        else if ("" : String) ≠ "" then "Details: " ++ ""
        else "Unknown cause - no additional information available") ∧
      ∃ t, iss.resolution = genericResolutionBase
        (getC [⟨"c1", "ns", .Cluster, [⟨"NodeOk", "False", "", ""⟩],
          .Degraded, none, none⟩] 0) ++ t :=
  ⟨by decide, rfl, by decide,
   claim_C7 _ (emptyEdges 1) 0 ⟨"NodeOk", "False", "", ""⟩ (by decide) rfl
     (by decide)⟩

/-! ## Claim C8: the pattern-category guidance scan -/

/-- Claim C8: the guidance scan is the first-match lookup over the fixed
ordered category list (connectivity/BMC, image/provisioning,
network/timeout, certificate, resource-exhaustion, authorization,
dependency-wait), over the lower-cased reason/message; and every issue
emitted for a "False" condition — knowledge-base matched or generic —
carries the base resolution with exactly that first matching category's
guidance block appended (nothing appended when no category matches). -/
theorem claim_C8 :
    (∀ reason message : String,
      getSpecificGuidanceFromReason reason message =
        ((guidanceCategories.find? (fun cat =>
          cat.1 (toLowerGo reason) (toLowerGo message))).map Prod.snd).getD
          "") ∧
    (∀ (comps : List Component) (E : Edges) (i : Nat) (cond : Condition),
      cond ∈ (getC comps i).conditions → cond.status = "False" →
      ∃ iss ∈ analyzeComponent comps E i,
        iss.condition = cond ∧
        iss.resolution =
          (match kbLookup ((getC comps i).type.str ++ "." ++ cond.type ++
              "." ++ cond.status) with
           | some kn => kn.resolution ++
              (if getSpecificGuidanceFromReason cond.reason cond.message ≠ ""
                then "\n\n💡 Specific guidance based on current state:\n" ++
                  getSpecificGuidanceFromReason cond.reason cond.message
                else "")
           | none => genericResolutionBase (getC comps i) ++
              (if getSpecificGuidanceFromReason cond.reason cond.message ≠ ""
                then "\n\n💡 Specific guidance based on error:\n" ++
                  getSpecificGuidanceFromReason cond.reason cond.message
                else ""))) := by
  constructor
  · intro reason message
    by_cases h1 : (containsGo (toLowerGo reason) "bmc" ||
      containsGo (toLowerGo message) "ipmi" ||
      containsGo (toLowerGo message) "bmc" ||
      containsGo (toLowerGo reason) "connection") = true
    case pos => simp [getSpecificGuidanceFromReason, guidanceCategories,
      List.find?, h1]
    case neg =>
    by_cases h2 : (containsGo (toLowerGo reason) "image" ||
      containsGo (toLowerGo message) "image" ||
      containsGo (toLowerGo message) "download" ||
      containsGo (toLowerGo message) "http") = true
    case pos => simp [getSpecificGuidanceFromReason, guidanceCategories,
      List.find?, h1, h2]
    case neg =>
    by_cases h3 : (containsGo (toLowerGo reason) "timeout" ||
      containsGo (toLowerGo message) "timeout" ||
      containsGo (toLowerGo message) "connection refused" ||
      containsGo (toLowerGo message) "network") = true
    case pos => simp [getSpecificGuidanceFromReason, guidanceCategories,
      List.find?, h1, h2, h3]
    case neg =>
    by_cases h4 : (containsGo (toLowerGo reason) "certificate" ||
      containsGo (toLowerGo message) "certificate" ||
      containsGo (toLowerGo message) "tls" ||
      containsGo (toLowerGo message) "x509") = true
    case pos => simp [getSpecificGuidanceFromReason, guidanceCategories,
      List.find?, h1, h2, h3, h4]
    case neg =>
    by_cases h5 : (containsGo (toLowerGo reason) "insufficient" ||
      containsGo (toLowerGo message) "insufficient" ||
      containsGo (toLowerGo message) "no available" ||
      containsGo (toLowerGo message) "quota") = true
    case pos => simp [getSpecificGuidanceFromReason, guidanceCategories,
      List.find?, h1, h2, h3, h4, h5]
    case neg =>
    by_cases h6 : (containsGo (toLowerGo reason) "auth" ||
      containsGo (toLowerGo message) "auth" ||
      containsGo (toLowerGo message) "permission" ||
      containsGo (toLowerGo message) "forbidden") = true
    case pos => simp [getSpecificGuidanceFromReason, guidanceCategories,
      List.find?, h1, h2, h3, h4, h5, h6]
    case neg =>
    by_cases h7 : (containsGo (toLowerGo reason) "waiting" ||
      containsGo (toLowerGo message) "waiting" ||
      containsGo (toLowerGo reason) "pending") = true
    case pos => simp [getSpecificGuidanceFromReason, guidanceCategories,
      List.find?, h1, h2, h3, h4, h5, h6, h7]
    case neg => simp [getSpecificGuidanceFromReason, guidanceCategories,
      List.find?, h1, h2, h3, h4, h5, h6, h7]
  · intro comps E i cond hmem hfalse
    have hcond : (mkIssue comps E i cond).condition = cond := by
      rw [mkIssue]
      split <;> rfl
    refine ⟨mkIssue comps E i cond, ?_, hcond, ?_⟩
    · rw [analyzeComponent_eq, List.mem_map]
      exact ⟨cond, List.mem_filter.mpr ⟨hmem, by simp [hfalse]⟩, rfl⟩
    · rw [mkIssue]
      split <;> rename_i heq
      · show enhanceResolution _ cond = _
        rw [enhanceResolution]
        split <;> rename_i hg
        · rw [String.append_assoc]
        · rw [String.append_empty]
      · show buildGenericResolution _ cond = _
        rw [buildGenericResolution]
        split <;> rename_i hg
        · rw [String.append_assoc]
        · rw [String.append_empty]

set_option maxRecDepth 4000 in
/-- Witness for claim C8, realising spec Scenario 5: reason
"BMCConnectionTimeout" matches the connectivity/BMC category first (it
also matches network/timeout, which is ignored), and a Cluster condition
`NodeOk=False` with that reason — no exact rule — gets the generic
resolution with the BMC guidance block appended. -/
theorem claim_C8_witness :
    getSpecificGuidanceFromReason "BMCConnectionTimeout" "" =
      ((guidanceCategories.find? (fun cat =>
        cat.1 (toLowerGo "BMCConnectionTimeout") (toLowerGo ""))).map
        Prod.snd).getD "" ∧
    ((⟨"NodeOk", "False", "BMCConnectionTimeout", ""⟩ : Condition) ∈
      (getC [⟨"c1", "ns", .Cluster,
        [⟨"NodeOk", "False", "BMCConnectionTimeout", ""⟩],
        .Degraded, none, none⟩] 0).conditions) ∧
    (∃ iss ∈ analyzeComponent
        [⟨"c1", "ns", .Cluster,
          [⟨"NodeOk", "False", "BMCConnectionTimeout", ""⟩],
          .Degraded, none, none⟩] (emptyEdges 1) 0,
      iss.condition = ⟨"NodeOk", "False", "BMCConnectionTimeout", ""⟩ ∧
      iss.resolution =
        (match kbLookup ((getC [⟨"c1", "ns", .Cluster,
            [⟨"NodeOk", "False", "BMCConnectionTimeout", ""⟩],
            .Degraded, none, none⟩] 0).type.str ++ "." ++ "NodeOk" ++
            "." ++ "False") with
         | some kn => kn.resolution ++
            (if getSpecificGuidanceFromReason "BMCConnectionTimeout" "" ≠ ""
              then "\n\n💡 Specific guidance based on current state:\n" ++
                getSpecificGuidanceFromReason "BMCConnectionTimeout" ""
              else "")
         | none => genericResolutionBase (getC [⟨"c1", "ns", .Cluster,
              [⟨"NodeOk", "False", "BMCConnectionTimeout", ""⟩],
              .Degraded, none, none⟩] 0) ++
            (if getSpecificGuidanceFromReason "BMCConnectionTimeout" "" ≠ ""
              then "\n\n💡 Specific guidance based on error:\n" ++
                getSpecificGuidanceFromReason "BMCConnectionTimeout" ""
              else ""))) ∧
    getSpecificGuidanceFromReason "BMCConnectionTimeout" "" = guidanceBMC :=
  ⟨claim_C8.1 "BMCConnectionTimeout" "",
   by decide,
   claim_C8.2 _ (emptyEdges 1) 0 ⟨"NodeOk", "False", "BMCConnectionTimeout", ""⟩
     (by decide) rfl,
   by decide⟩

/-! ## The graph builder as a fold over its attempt list

Every relationship rule computes its `setParentChild` attempts from the
records alone — never from the current edge state — so each rule equals
folding `applyEdge` over its attempt list. -/

theorem foldIf_filter (i : Nat) (P : Nat → Prop) [DecidablePred P] :
    ∀ (L : List Nat) (e : Edges),
    L.foldl (fun e j => if P j then setParentChild e i j else e) e =
      ((L.filter (fun j => P j)).map (fun j => (i, j))).foldl applyEdge e := by
  intro L
  induction L with
  | nil => intro e; rfl
  | cons j rest ih =>
    intro e
    rw [List.foldl_cons, List.filter_cons]
    by_cases h : P j
    · rw [if_pos h, ih]
      simp [h, applyEdge]
    · rw [if_neg h, ih]
      simp [h]

theorem buildMachineRelationships_eq (comps : List Component) (i : Nat)
    (e : Edges) :
    buildMachineRelationships comps i e =
      (attemptsMachine comps i).foldl applyEdge e := by
  rw [buildMachineRelationships, attemptsMachine]
  repeat (first | rfl | (rw [List.foldl_append]) | split)

theorem buildClusterRelationships_eq (comps : List Component) (i : Nat)
    (e : Edges) :
    buildClusterRelationships comps i e =
      (attemptsCluster comps i).foldl applyEdge e := by
  rw [buildClusterRelationships, attemptsCluster]
  repeat (first | rfl | (rw [List.foldl_append]) | split)

theorem buildMetal3MachineRelationships_eq (comps : List Component) (i : Nat)
    (e : Edges) :
    buildMetal3MachineRelationships comps i e =
      (attemptsMetal3Machine comps i).foldl applyEdge e := by
  rw [buildMetal3MachineRelationships, attemptsMetal3Machine]
  repeat (first | rfl | split)

theorem buildMachineSetRelationships_eq (comps : List Component) (i : Nat)
    (e : Edges) :
    buildMachineSetRelationships comps i e =
      (attemptsOwned comps i .Machine "MachineSet").foldl applyEdge e := by
  rw [buildMachineSetRelationships, attemptsOwned]
  exact foldIf_filter i _ (idxIds comps) e

theorem buildMachineDeploymentRelationships_eq (comps : List Component)
    (i : Nat) (e : Edges) :
    buildMachineDeploymentRelationships comps i e =
      (attemptsOwned comps i .MachineSet "MachineDeployment").foldl
        applyEdge e := by
  rw [buildMachineDeploymentRelationships, attemptsOwned]
  exact foldIf_filter i _ (idxIds comps) e

theorem buildKubeadmControlPlaneRelationships_eq (comps : List Component)
    (i : Nat) (e : Edges) :
    buildKubeadmControlPlaneRelationships comps i e =
      (attemptsOwned comps i .Machine "KubeadmControlPlane").foldl
        applyEdge e := by
  rw [buildKubeadmControlPlaneRelationships, attemptsOwned]
  exact foldIf_filter i _ (idxIds comps) e

theorem buildRelationships_eq (comps : List Component) (i : Nat) (e : Edges) :
    buildRelationships comps i e = (attemptsOf comps i).foldl applyEdge e := by
  rw [buildRelationships, attemptsOf]
  split
  · exact buildMachineRelationships_eq comps i e
  · exact buildMachineSetRelationships_eq comps i e
  · exact buildMachineDeploymentRelationships_eq comps i e
  · exact buildMetal3MachineRelationships_eq comps i e
  · exact buildClusterRelationships_eq comps i e
  · exact buildKubeadmControlPlaneRelationships_eq comps i e
  · rfl

theorem buildEdges_eq (comps : List Component) (e : Edges) :
    buildEdges comps e = (attemptsAll comps).foldl applyEdge e := by
  rw [buildEdges, attemptsAll]
  have gen : ∀ (L : List Nat) (A : List (Nat × Nat)) (e : Edges),
      L.foldl (fun e i => buildRelationships comps i e)
        (A.foldl applyEdge e) =
      (L.foldl (fun acc i => acc ++ attemptsOf comps i) A).foldl
        applyEdge e := by
    intro L
    induction L with
    | nil => intro A e; rfl
    | cons j rest ih =>
      intro A e
      rw [List.foldl_cons, List.foldl_cons, buildRelationships_eq,
        ← List.foldl_append]
      exact ih (A ++ attemptsOf comps j) e
  have := gen (List.range comps.length) [] e
  simpa using this

/-! ## Bounds and typing of the attempt pairs -/

theorem getD_set_self (l : List α) (i : Nat) (v d : α) (h : i < l.length) :
    (l.set i v).getD i d = v := by
  rw [List.getD_eq_getElem?_getD, List.getElem?_set_self, Option.getD_some]
  exact h

theorem getD_set_ne (l : List α) (i j : Nat) (v d : α) (h : i ≠ j) :
    (l.set i v).getD j d = l.getD j d := by
  rw [List.getD_eq_getElem?_getD, List.getElem?_set_ne h,
    ← List.getD_eq_getElem?_getD]

theorem getD_replicate (n i : Nat) (x : α) :
    (List.replicate n x).getD i x = x := by
  rw [List.getD_eq_getElem?_getD]
  by_cases h : i < n
  · rw [List.getElem?_replicate, if_pos h, Option.getD_some]
  · rw [List.getElem?_eq_none, Option.getD_none]
    rw [List.length_replicate]
    omega

theorem insertKey_val (k : String) (v : Nat) :
    ∀ (m : List (String × Nat)), ∀ kv ∈ insertKey k v m,
      kv.2 = v ∨ kv ∈ m := by
  intro m
  induction m with
  | nil =>
    intro kv hkv
    rw [insertKey] at hkv
    rcases List.mem_singleton.mp hkv with h
    exact Or.inl (by rw [h])
  | cons hd tl ih =>
    intro kv hkv
    rw [insertKey] at hkv
    split at hkv
    · rcases List.mem_cons.mp hkv with h | h
      · exact Or.inl (by rw [h])
      · exact Or.inr (List.mem_cons_of_mem hd h)
    · rcases List.mem_cons.mp hkv with h | h
      · exact Or.inr (h ▸ List.mem_cons_self hd tl)
      · rcases ih kv h with h' | h'
        · exact Or.inl h'
        · exact Or.inr (List.mem_cons_of_mem hd h')

theorem idxIds_lt (comps : List Component) :
    ∀ x ∈ idxIds comps, x < comps.length := by
  have gen : ∀ (L : List Nat) (m : List (String × Nat)),
      (∀ kv ∈ m, kv.2 < comps.length) → (∀ i ∈ L, i < comps.length) →
      ∀ kv ∈ L.foldl
        (fun m i => insertKey (componentKey (getC comps i)) i m) m,
        kv.2 < comps.length := by
    intro L
    induction L with
    | nil => intro m hm _ kv hkv; exact hm kv hkv
    | cons j rest ih =>
      intro m hm hL kv hkv
      rw [List.foldl_cons] at hkv
      refine ih _ ?_ (fun i hi => hL i (List.mem_cons_of_mem j hi)) kv hkv
      intro kv' hkv'
      rcases insertKey_val _ _ m kv' hkv' with h | h
      · rw [h]; exact hL j (List.mem_cons_self j rest)
      · exact hm kv' h
  intro x hx
  rw [idxIds, List.mem_map] at hx
  obtain ⟨kv, hkv, hsnd⟩ := hx
  rw [buildIndex] at hkv
  have := gen (List.range comps.length) [] (by simp)
    (fun i hi => List.mem_range.mp hi) kv hkv
  rw [hsnd] at this
  exact this

theorem findComponent_some (comps : List Component) (name ns : String)
    (t : ComponentType) (j : Nat)
    (h : findComponent comps name ns t = some j) :
    j < comps.length ∧ (getC comps j).type = t := by
  rw [findComponent] at h
  have hmem := List.mem_of_find?_eq_some h
  have hp := List.find?_some h
  simp only [Bool.and_eq_true, beq_iff_eq] at hp
  exact ⟨idxIds_lt comps j hmem, hp.2⟩

theorem findBareMetalHostBySelector_some (comps : List Component)
    (ns : String) (j : Nat)
    (h : findBareMetalHostBySelector comps ns = some j) :
    j < comps.length ∧ (getC comps j).type = .BareMetalHost := by
  rw [findBareMetalHostBySelector] at h
  have hmem := List.mem_of_find?_eq_some h
  have hp := List.find?_some h
  simp only [Bool.and_eq_true, beq_iff_eq] at hp
  exact ⟨idxIds_lt comps j hmem, hp.1⟩

theorem attemptsOf_typed (comps : List Component) (i : Nat)
    (hi : i < comps.length) :
    ∀ pc ∈ attemptsOf comps i, pc.1 < comps.length ∧ pc.2 < comps.length ∧
      typeRank (getC comps pc.1).type < typeRank (getC comps pc.2).type := by
  intro pc hpc
  rw [attemptsOf] at hpc
  split at hpc
  case h_1 htype =>
    rw [attemptsMachine] at hpc
    split at hpc
    · exact absurd hpc (List.not_mem_nil pc)
    · rcases List.mem_append.mp hpc with h' | h'
      rcases List.mem_append.mp h' with h'' | h''
      · -- clusterName attempt (cluster, i)
        split at h''
        case h_2 => exact absurd h'' (List.not_mem_nil pc)
        case h_1 cn hcn =>
          split at h''
          case h_2 => exact absurd h'' (List.not_mem_nil pc)
          case h_1 cl hcl =>
            rw [List.mem_singleton.mp h'']
            obtain ⟨hlt, hty⟩ := findComponent_some _ _ _ _ _ hcl
            refine ⟨hlt, hi, ?_⟩
            rw [hty, htype]
            decide
      · -- infrastructureRef attempt (i, infraMachine)
        split at h''
        case h_2 => exact absurd h'' (List.not_mem_nil pc)
        case h_1 r hr =>
          split at h''
          case h_2 => exact absurd h'' (List.not_mem_nil pc)
          case h_1 nm hnm =>
            split at h''
            case h_2 => exact absurd h'' (List.not_mem_nil pc)
            case h_1 im him =>
              rw [List.mem_singleton.mp h'']
              obtain ⟨hlt, hty⟩ := findComponent_some _ _ _ _ _ him
              refine ⟨hi, hlt, ?_⟩
              rw [hty, htype]
              decide
      · -- bootstrap attempt (i, bootstrapConfig)
        split at h'
        case h_2 => exact absurd h' (List.not_mem_nil pc)
        case h_1 r hr =>
          split at h'
          case h_2 => exact absurd h' (List.not_mem_nil pc)
          case h_1 nm hnm =>
            split at h'
            case h_2 => exact absurd h' (List.not_mem_nil pc)
            case h_1 bc hbc =>
              rw [List.mem_singleton.mp h']
              obtain ⟨hlt, hty⟩ := findComponent_some _ _ _ _ _ hbc
              refine ⟨hi, hlt, ?_⟩
              rw [hty, htype]
              decide
  case h_2 htype =>
    rw [attemptsOwned] at hpc
    rw [List.mem_map] at hpc
    obtain ⟨j, hj, hpair⟩ := hpc
    rw [List.mem_filter] at hj
    obtain ⟨hjm, hjp⟩ := hj
    simp only [decide_eq_true_eq] at hjp
    rw [← hpair]
    refine ⟨hi, idxIds_lt comps j hjm, ?_⟩
    rw [hjp.1, htype]
    decide
  case h_3 htype =>
    rw [attemptsOwned] at hpc
    rw [List.mem_map] at hpc
    obtain ⟨j, hj, hpair⟩ := hpc
    rw [List.mem_filter] at hj
    obtain ⟨hjm, hjp⟩ := hj
    simp only [decide_eq_true_eq] at hjp
    rw [← hpair]
    refine ⟨hi, idxIds_lt comps j hjm, ?_⟩
    rw [hjp.1, htype]
    decide
  case h_4 htype =>
    rw [attemptsMetal3Machine] at hpc
    split at hpc
    · exact absurd hpc (List.not_mem_nil pc)
    · split at hpc
      · split at hpc
        case h_1 bmh hbmh =>
          rw [List.mem_singleton.mp hpc]
          obtain ⟨hlt, hty⟩ := findBareMetalHostBySelector_some _ _ _ hbmh
          refine ⟨hi, hlt, ?_⟩
          rw [hty, htype]
          decide
        case h_2 => exact absurd hpc (List.not_mem_nil pc)
      · exact absurd hpc (List.not_mem_nil pc)
  case h_5 htype =>
    rw [attemptsCluster] at hpc
    split at hpc
    · exact absurd hpc (List.not_mem_nil pc)
    · rcases List.mem_append.mp hpc with h' | h'
      · split at h'
        case h_2 => exact absurd h' (List.not_mem_nil pc)
        case h_1 r hr =>
          split at h'
          case h_2 => exact absurd h' (List.not_mem_nil pc)
          case h_1 nm hnm =>
            split at h'
            case h_2 => exact absurd h' (List.not_mem_nil pc)
            case h_1 ic hic =>
              rw [List.mem_singleton.mp h']
              obtain ⟨hlt, hty⟩ := findComponent_some _ _ _ _ _ hic
              refine ⟨hi, hlt, ?_⟩
              rw [hty, htype]
              decide
      · split at h'
        case h_2 => exact absurd h' (List.not_mem_nil pc)
        case h_1 r hr =>
          split at h'
          case h_2 => exact absurd h' (List.not_mem_nil pc)
          case h_1 nm hnm =>
            split at h'
            case h_2 => exact absurd h' (List.not_mem_nil pc)
            case h_1 cp hcp =>
              rw [List.mem_singleton.mp h']
              obtain ⟨hlt, hty⟩ := findComponent_some _ _ _ _ _ hcp
              refine ⟨hi, hlt, ?_⟩
              rw [hty, htype]
              decide
  case h_6 htype =>
    rw [attemptsOwned] at hpc
    rw [List.mem_map] at hpc
    obtain ⟨j, hj, hpair⟩ := hpc
    rw [List.mem_filter] at hj
    obtain ⟨hjm, hjp⟩ := hj
    simp only [decide_eq_true_eq] at hjp
    rw [← hpair]
    refine ⟨hi, idxIds_lt comps j hjm, ?_⟩
    rw [hjp.1, htype]
    decide
  case h_7 => exact absurd hpc (List.not_mem_nil pc)

theorem attemptsAll_mem (comps : List Component) :
    ∀ pc ∈ attemptsAll comps, ∃ i, i < comps.length ∧
      pc ∈ attemptsOf comps i := by
  have gen : ∀ (L : List Nat) (A : List (Nat × Nat)),
      ∀ pc ∈ L.foldl (fun acc i => acc ++ attemptsOf comps i) A,
        pc ∈ A ∨ ∃ i ∈ L, pc ∈ attemptsOf comps i := by
    intro L
    induction L with
    | nil => intro A pc hpc; exact Or.inl hpc
    | cons j rest ih =>
      intro A pc hpc
      rw [List.foldl_cons] at hpc
      rcases ih _ pc hpc with h | ⟨i, hi, hmem⟩
      · rcases List.mem_append.mp h with h' | h'
        · exact Or.inl h'
        · exact Or.inr ⟨j, List.mem_cons_self j rest, h'⟩
      · exact Or.inr ⟨i, List.mem_cons_of_mem j hi, hmem⟩
  intro pc hpc
  rw [attemptsAll] at hpc
  rcases gen (List.range comps.length) [] pc hpc with h | ⟨i, hi, hmem⟩
  · exact absurd h (List.not_mem_nil pc)
  · exact ⟨i, List.mem_range.mp hi, hmem⟩

theorem attemptsAll_typed (comps : List Component) :
    ∀ pc ∈ attemptsAll comps, pc.1 < comps.length ∧ pc.2 < comps.length ∧
      typeRank (getC comps pc.1).type < typeRank (getC comps pc.2).type := by
  intro pc hpc
  obtain ⟨i, hi, hmem⟩ := attemptsAll_mem comps pc hpc
  exact attemptsOf_typed comps i hi pc hmem

/-! ## Claim C2: the builder produces a forest -/

theorem parentD_setParentChild_of_none (e : Edges) (p c : Nat)
    (hnone : parentD e c = none) (hc : c < e.parent.length) :
    (∀ x, parentD (setParentChild e p c) x =
      if x = c then some p else parentD e x) ∧
    (∀ q, childD (setParentChild e p c) q =
      if q = p ∧ p < e.children.length then childD e p ++ [c]
      else childD e q) := by
  have hnone' : e.parent.getD c none = none := hnone
  rw [setParentChild, if_pos hnone']
  constructor
  · intro x
    by_cases hx : x = c
    · subst hx
      rw [parentD]
      show (e.parent.set x (some p)).getD x none = _
      rw [getD_set_self _ _ _ _ hc, if_pos rfl]
    · rw [parentD]
      show (e.parent.set c (some p)).getD x none = _
      rw [getD_set_ne _ _ _ _ _ (fun hq => hx hq.symm), if_neg hx]
      rfl
  · intro q
    by_cases hq : q = p
    · subst hq
      by_cases hp : q < e.children.length
      · rw [childD]
        show (e.children.set q (childD e q ++ [c])).getD q [] = _
        rw [getD_set_self _ _ _ _ hp, if_pos ⟨rfl, hp⟩]
      · rw [childD]
        show (e.children.set q (childD e q ++ [c])).getD q [] = _
        rw [List.set_eq_of_length_le (by omega), if_neg (by tauto)]
        rfl
    · rw [childD]
      show (e.children.set p (childD e p ++ [c])).getD q [] = _
      rw [getD_set_ne _ _ _ _ _ (fun hx => hq hx.symm),
        if_neg (by tauto)]
      rfl

theorem EdgesInv_setParentChild (comps : List Component) (e : Edges)
    (p c : Nat) (hp : p < comps.length) (hc : c < comps.length)
    (hrank : typeRank (getC comps p).type < typeRank (getC comps c).type)
    (h : EdgesInv comps e) : EdgesInv comps (setParentChild e p c) := by
  obtain ⟨hlp, hlc, hcount, hrk⟩ := h
  by_cases hnone : parentD e c = none
  case neg =>
    have hnone' : ¬ e.parent.getD c none = none := hnone
    rw [setParentChild, if_neg hnone']
    exact ⟨hlp, hlc, hcount, hrk⟩
  case pos =>
    obtain ⟨hpar, hchild⟩ :=
      parentD_setParentChild_of_none e p c hnone (by omega)
    have hnone' : e.parent.getD c none = none := hnone
    refine ⟨?_, ?_, ?_, ?_⟩
    · rw [setParentChild, if_pos hnone']
      show (e.parent.set c (some p)).length = _
      rw [List.length_set]
      exact hlp
    · rw [setParentChild, if_pos hnone']
      show (e.children.set p (childD e p ++ [c])).length = _
      rw [List.length_set]
      exact hlc
    · intro p' c'
      rw [hpar c', hchild p']
      by_cases hc' : c' = c
      · subst hc'
        by_cases hp' : p' = p
        · subst hp'
          rw [if_pos ⟨rfl, by omega⟩, if_pos rfl, List.count_append]
          have h0 := hcount p' c'
          rw [hnone] at h0
          simp at h0
          simp [h0]
        · rw [if_neg (by tauto), if_pos rfl,
            if_neg (fun q => hp' (Option.some.inj q).symm)]
          have h0 := hcount p' c'
          rw [hnone] at h0
          simpa using h0
      · by_cases hp' : p' = p
        · subst hp'
          rw [if_pos ⟨rfl, by omega⟩, if_neg hc', List.count_append]
          have h1 : ([c].count c') = 0 := by
            simp [List.count_singleton]
            exact fun q => hc' q.symm
          rw [h1, hcount p' c']
          omega
        · rw [if_neg (by tauto), if_neg hc']
          exact hcount p' c'
    · intro p' c'
      rw [hpar c']
      by_cases hc' : c' = c
      · subst hc'
        rw [if_pos rfl]
        intro hsome
        have : p' = p := by
          injection hsome with h'
          exact h'.symm
        subst this
        exact hrank
      · rw [if_neg hc']
        exact hrk p' c'

theorem EdgesInv_empty (comps : List Component) :
    EdgesInv comps (emptyEdges comps.length) := by
  refine ⟨by simp [emptyEdges], by simp [emptyEdges], ?_, ?_⟩
  · intro p c
    have h1 : childD (emptyEdges comps.length) p = [] :=
      getD_replicate _ _ _
    have h2 : parentD (emptyEdges comps.length) c = none :=
      getD_replicate _ _ _
    rw [h1, h2]
    simp
  · intro p c h
    have h2 : parentD (emptyEdges comps.length) c = none :=
      getD_replicate _ _ _
    rw [h2] at h
    exact absurd h (by simp)

theorem EdgesInv_fold (comps : List Component) (A : List (Nat × Nat))
    (hA : ∀ pc ∈ A, pc.1 < comps.length ∧ pc.2 < comps.length ∧
      typeRank (getC comps pc.1).type < typeRank (getC comps pc.2).type) :
    ∀ (e : Edges), EdgesInv comps e →
      EdgesInv comps (A.foldl applyEdge e) := by
  induction A with
  | nil => intro e h; exact h
  | cons pc rest ih =>
    intro e h
    rw [List.foldl_cons]
    obtain ⟨h1, h2, h3⟩ := hA pc (List.mem_cons_self pc rest)
    exact ih (fun pc' hpc' => hA pc' (List.mem_cons_of_mem pc hpc'))
      (applyEdge e pc) (EdgesInv_setParentChild comps e pc.1 pc.2 h1 h2 h3 h)

theorem EdgesInv_build (comps : List Component) :
    EdgesInv comps (buildEdges comps (emptyEdges comps.length)) := by
  rw [buildEdges_eq]
  exact EdgesInv_fold comps (attemptsAll comps) (attemptsAll_typed comps) _
    (EdgesInv_empty comps)

theorem iterParent_zero (e : Edges) (c : Nat) :
    iterParent e 0 c = some c := rfl

theorem iterParent_succ (e : Edges) (k c : Nat) :
    iterParent e (k+1) c =
      match parentD e c with
      | some p => iterParent e k p
      | none => none := rfl

theorem iterParent_rank (comps : List Component) (e : Edges)
    (hrk : ∀ p c : Nat, parentD e c = some p →
      typeRank (getC comps p).type < typeRank (getC comps c).type) :
    ∀ (k c a : Nat), iterParent e (k+1) c = some a →
      typeRank (getC comps a).type < typeRank (getC comps c).type := by
  intro k
  induction k with
  | zero =>
    intro c a h
    rw [iterParent_succ] at h
    cases hp : parentD e c with
    | none => rw [hp] at h; exact absurd h (by simp)
    | some p =>
      rw [hp] at h
      have h2 : some p = some a := h
      injection h2 with h'
      subst h'
      exact hrk p c hp
  | succ k ih =>
    intro c a h
    rw [iterParent_succ] at h
    cases hp : parentD e c with
    | none => rw [hp] at h; exact absurd h (by simp)
    | some p =>
      rw [hp] at h
      have h2 : iterParent e (k+1) p = some a := h
      have := ih p a h2
      have := hrk p c hp
      omega

/-- Claim C2: after the builder runs, the edge set is a forest — no record
is its own ancestor, and for every pair of records `p`, `c` the child
list of `p` contains `c` exactly once when `c.parent = p` and not at all
otherwise (hence no duplicate child entries and no record under two
parents; a record's `parent` field holds at most one parent by
construction). -/
theorem claim_C2 (comps : List Component) :
    (∀ c : Nat, ancestorB
      (buildDependencyTree comps (emptyEdges comps.length)).1
      comps.length c c = false) ∧
    (∀ p c : Nat,
      (childD (buildDependencyTree comps (emptyEdges comps.length)).1
        p).count c =
      if parentD (buildDependencyTree comps (emptyEdges comps.length)).1
        c = some p then 1 else 0) := by
  obtain ⟨hlp, hlc, hcount, hrk⟩ := EdgesInv_build comps
  constructor
  · intro c
    rw [ancestorB]
    rw [List.any_eq_false]
    intro k _
    simp only [beq_iff_eq]
    intro hiter
    have := iterParent_rank comps _ hrk k c c hiter
    omega
  · exact hcount

/-! ## Claim C6: the builder is idempotent -/

theorem setParentChild_parent_length (e : Edges) (p c : Nat) :
    (setParentChild e p c).parent.length = e.parent.length := by
  by_cases hg : e.parent.getD c none = none
  · rw [setParentChild, if_pos hg]
    show (e.parent.set c (some p)).length = e.parent.length
    rw [List.length_set]
  · rw [setParentChild, if_neg hg]

theorem parentD_setParentChild_mono (e : Edges) (p' c' x : Nat)
    (h : parentD e x ≠ none) :
    parentD (setParentChild e p' c') x ≠ none := by
  by_cases hg : e.parent.getD c' none = none
  · rw [setParentChild, if_pos hg]
    show (e.parent.set c' (some p')).getD x none ≠ none
    by_cases hx : x = c'
    · subst hx
      exact absurd hg h
    · rw [getD_set_ne _ _ _ _ _ (fun q => hx q.symm)]
      exact h
  · rw [setParentChild, if_neg hg]
    exact h

theorem parentD_fold_mono (l : List (Nat × Nat)) :
    ∀ (e : Edges) (x : Nat), parentD e x ≠ none →
      parentD (l.foldl applyEdge e) x ≠ none := by
  induction l with
  | nil => intro e x h; exact h
  | cons pc rest ih =>
    intro e x h
    rw [List.foldl_cons]
    exact ih _ x (parentD_setParentChild_mono e pc.1 pc.2 x h)

theorem parentD_setParentChild_self (e : Edges) (p c : Nat)
    (hc : c < e.parent.length) :
    parentD (setParentChild e p c) c ≠ none := by
  by_cases hg : e.parent.getD c none = none
  · rw [setParentChild, if_pos hg]
    show (e.parent.set c (some p)).getD c none ≠ none
    rw [getD_set_self _ _ _ _ hc]
    simp
  · rw [setParentChild, if_neg hg]
    exact hg

theorem parentD_fold_set (l : List (Nat × Nat)) :
    ∀ (e : Edges), (∀ pc ∈ l, pc.2 < e.parent.length) →
      ∀ pc ∈ l, parentD (l.foldl applyEdge e) pc.2 ≠ none := by
  induction l with
  | nil => intro e _ pc hpc; exact absurd hpc (List.not_mem_nil pc)
  | cons q rest ih =>
    intro e hlen pc hpc
    rw [List.foldl_cons]
    rcases List.mem_cons.mp hpc with h | h
    · rw [h]
      exact parentD_fold_mono rest (applyEdge e q) q.2
        (parentD_setParentChild_self e q.1 q.2
          (hlen q (List.mem_cons_self q rest)))
    · refine ih (applyEdge e q) ?_ pc h
      intro r hr
      have hb := hlen r (List.mem_cons_of_mem q hr)
      show r.2 < (setParentChild e q.1 q.2).parent.length
      rw [setParentChild_parent_length]
      exact hb

theorem fold_noop (l : List (Nat × Nat)) :
    ∀ (e : Edges), (∀ pc ∈ l, parentD e pc.2 ≠ none) →
      l.foldl applyEdge e = e := by
  induction l with
  | nil => intro e _; rfl
  | cons q rest ih =>
    intro e h
    rw [List.foldl_cons]
    have hq : applyEdge e q = e := by
      have hn : ¬ e.parent.getD q.2 none = none :=
        h q (List.mem_cons_self q rest)
      rw [applyEdge, setParentChild, if_neg hn]
    rw [hq]
    exact ih e fun pc hpc => h pc (List.mem_cons_of_mem q hpc)

/-- Claim C6: the Graph Builder is idempotent — running it a second time
on the unchanged record collection, starting from the edge state the
first run produced, returns the identical edge state (hence the
identical parent and children lists for every record) and the identical
root list. -/
theorem claim_C6 (comps : List Component) :
    buildDependencyTree comps
      ((buildDependencyTree comps (emptyEdges comps.length)).1) =
    buildDependencyTree comps (emptyEdges comps.length) := by
  have hset : ∀ pc ∈ attemptsAll comps,
      parentD (buildEdges comps (emptyEdges comps.length)) pc.2 ≠ none := by
    rw [buildEdges_eq]
    refine parentD_fold_set (attemptsAll comps) (emptyEdges comps.length)
      (fun pc hpc => ?_)
    have hb := (attemptsAll_typed comps pc hpc).2.1
    show pc.2 < (List.replicate comps.length (none : Option Nat)).length
    rw [List.length_replicate]
    exact hb
  have key : buildEdges comps
      ((buildDependencyTree comps (emptyEdges comps.length)).1) =
      buildEdges comps (emptyEdges comps.length) := by
    show buildEdges comps (buildEdges comps (emptyEdges comps.length)) = _
    rw [buildEdges_eq comps (buildEdges comps (emptyEdges comps.length))]
    exact fold_noop (attemptsAll comps) _ hset
  show (buildEdges comps
      ((buildDependencyTree comps (emptyEdges comps.length)).1),
    rootsOf comps (buildEdges comps
      ((buildDependencyTree comps (emptyEdges comps.length)).1))) =
    (buildEdges comps (emptyEdges comps.length),
      rootsOf comps (buildEdges comps (emptyEdges comps.length)))
  rw [key]

/-! ## Claim C3: stability of the severity sort

The comparator orders issues by the three-valued severity rank.  On
collections of at most 12 issues `sort.Slice` runs its insertion sort,
which is stable: the result is exactly the three severity classes
concatenated, each in scan order.  On longer collections the pdqsort
partitioning reorders equal-rank issues; `compsC3` (13 issues) is a
concrete counterexample. -/

theorem swapL_cons (p : α) (t : List α) (i j : Nat) :
    swapL (p :: t) (i+1) (j+1) = p :: swapL t i j := by
  simp only [swapL, List.get?_cons_succ]
  cases t.get? i <;> cases t.get? j <;> rfl

theorem get_append_len (P : List α) (z : α) (R : List α) :
    (P ++ z :: R).get? P.length = some z := by
  induction P with
  | nil => rfl
  | cons p ps ih => simpa using ih

theorem swapL_adjacent (P : List α) (u v : α) (R : List α) :
    swapL (P ++ u :: v :: R) (P.length + 1) P.length = P ++ v :: u :: R := by
  induction P with
  | nil => rfl
  | cons p ps ih =>
    show swapL (p :: (ps ++ u :: v :: R)) (ps.length + 1 + 1) (ps.length + 1)
      = p :: (ps ++ v :: u :: R)
    rw [swapL_cons, ih]

theorem lessAt_append_adj (less : α → α → Bool) (P : List α) (u w : α)
    (R : List α) :
    lessAt less (P ++ u :: w :: R) (P.length + 1) P.length = less w u := by
  have h1 : (P ++ u :: w :: R).get? (P.length + 1) = some w := by
    have := get_append_len (P ++ [u]) w R
    simpa using this
  have h2 : (P ++ u :: w :: R).get? P.length = some u :=
    get_append_len P u (w :: R)
  rw [lessAt, h1, h2]

theorem insertInner_succ (less : α → α → Bool) (a : Nat) (l : List α)
    (j : Nat) :
    insertInner less a l (j+1) =
      if a < j+1 ∧ lessAt less l (j+1) j then
        insertInner less a (swapL l (j+1) j) j
      else l := rfl

theorem insertInner_spec (less : α → α → Bool) (x : α) :
    ∀ (B A R : List α) (j : Nat),
      j = A.length + B.length →
      (∀ y ∈ B, less x y = true) →
      (∀ A0 z, A = A0 ++ [z] → less x z = false) →
      insertInner less 0 (A ++ (B ++ x :: R)) j = A ++ x :: (B ++ R) := by
  intro B
  induction B using List.reverseRecOn with
  | nil =>
    intro A R j hj _ hstop
    rcases List.eq_nil_or_concat A with hA | ⟨A0, z, hA⟩
    · subst hA; subst hj; rfl
    · rw [List.concat_eq_append] at hA
      subst hA
      have hz := hstop A0 z rfl
      have hj' : j = A0.length + 1 := by simp at hj; omega
      subst hj'
      have hshape : (A0 ++ [z]) ++ ([] ++ x :: R) = A0 ++ z :: x :: R := by
        simp
      rw [hshape, insertInner_succ, lessAt_append_adj, hz]
      simp
  | append_singleton B' y ihB =>
    intro A R j hj hless hstop
    have hy : less x y = true := hless y (by simp)
    have hj' : j = (A.length + B'.length) + 1 := by simp at hj; omega
    subst hj'
    have hshape : A ++ ((B' ++ [y]) ++ x :: R) = (A ++ B') ++ y :: x :: R := by
      simp
    have hlen : A.length + B'.length = (A ++ B').length := by simp
    rw [hshape, hlen, insertInner_succ, lessAt_append_adj]
    rw [if_pos ⟨Nat.succ_pos _, hy⟩]
    rw [swapL_adjacent]
    have hrec := ihB A (y :: R) (A ++ B').length (by simp)
      (fun z hz => hless z (by simp [hz])) hstop
    rw [show A ++ (B' ++ x :: y :: R) = (A ++ B') ++ x :: y :: R by simp]
      at hrec
    rw [hrec]
    simp

theorem rkFilter_length_sum (rk : α → Nat) (hrk : ∀ x, rk x ≤ 2)
    (l : List α) :
    (rkFilter rk 0 l).length + (rkFilter rk 1 l).length +
      (rkFilter rk 2 l).length = l.length := by
  induction l with
  | nil => rfl
  | cons a t ih =>
    simp only [rkFilter, List.filter_cons] at ih ⊢
    rcases (by have := hrk a; omega : rk a = 0 ∨ rk a = 1 ∨ rk a = 2)
      with h | h | h <;> simp [h] <;> omega

theorem classConcat_length (rk : α → Nat) (hrk : ∀ x, rk x ≤ 2)
    (l : List α) :
    (classConcat rk l).length = l.length := by
  have h := rkFilter_length_sum rk hrk l
  simp only [classConcat, List.length_append]
  omega

theorem rkFilter_mem (rk : α → Nat) (k : Nat) (l : List α) :
    ∀ y ∈ rkFilter rk k l, rk y = k := by
  intro y hy
  rw [rkFilter] at hy
  have := List.of_mem_filter hy
  simpa using this

theorem rkFilter_snoc_eq (rk : α → Nat) (k : Nat) (x : α) (l : List α)
    (h : rk x = k) :
    rkFilter rk k (l ++ [x]) = rkFilter rk k l ++ [x] := by
  rw [rkFilter, rkFilter, List.filter_append]
  simp [h]

theorem rkFilter_snoc_ne (rk : α → Nat) (k : Nat) (x : α) (l : List α)
    (h : ¬ rk x = k) :
    rkFilter rk k (l ++ [x]) = rkFilter rk k l := by
  rw [rkFilter, rkFilter, List.filter_append]
  simp [h]

theorem insertInner_classConcat (rk : α → Nat) (hrk : ∀ x, rk x ≤ 2)
    (S : List α) (x : α) (R : List α) (j : Nat) (hj : j = S.length) :
    insertInner (fun u v => decide (rk u < rk v)) 0
      (classConcat rk S ++ x :: R) j =
    classConcat rk (S ++ [x]) ++ R := by
  have hlen := classConcat_length rk hrk S
  have hsum := rkFilter_length_sum rk hrk S
  rcases (by have := hrk x; omega : rk x = 0 ∨ rk x = 1 ∨ rk x = 2)
    with h | h | h
  · have hj2 : j = (rkFilter rk 0 S).length +
        (rkFilter rk 1 S ++ rkFilter rk 2 S).length := by
      simp only [List.length_append]
      omega
    have hB : ∀ y ∈ rkFilter rk 1 S ++ rkFilter rk 2 S,
        (fun u v => decide (rk u < rk v)) x y = true := by
      intro y hy
      simp only [decide_eq_true_eq]
      rcases List.mem_append.mp hy with h1 | h1
      · have h2 := rkFilter_mem rk 1 S y h1; omega
      · have h2 := rkFilter_mem rk 2 S y h1; omega
    have hA : ∀ A0 z, rkFilter rk 0 S = A0 ++ [z] →
        (fun u v => decide (rk u < rk v)) x z = false := by
      intro A0 z hAe
      have hzm : z ∈ rkFilter rk 0 S := by rw [hAe]; simp
      have h2 := rkFilter_mem rk 0 S z hzm
      simp only [decide_eq_false_iff_not]
      omega
    have key := insertInner_spec (fun u v => decide (rk u < rk v)) x
      (rkFilter rk 1 S ++ rkFilter rk 2 S) (rkFilter rk 0 S) R j hj2 hB hA
    rw [show classConcat rk S ++ x :: R =
        rkFilter rk 0 S ++ ((rkFilter rk 1 S ++ rkFilter rk 2 S) ++ x :: R) by
      simp [classConcat]]
    rw [key, classConcat, rkFilter_snoc_eq rk 0 x S h,
        rkFilter_snoc_ne rk 1 x S (by omega),
        rkFilter_snoc_ne rk 2 x S (by omega)]
    simp
  · have hj2 : j = (rkFilter rk 0 S ++ rkFilter rk 1 S).length +
        (rkFilter rk 2 S).length := by
      simp only [List.length_append]
      omega
    have hB : ∀ y ∈ rkFilter rk 2 S,
        (fun u v => decide (rk u < rk v)) x y = true := by
      intro y hy
      simp only [decide_eq_true_eq]
      have h2 := rkFilter_mem rk 2 S y hy
      omega
    have hA : ∀ A0 z, rkFilter rk 0 S ++ rkFilter rk 1 S = A0 ++ [z] →
        (fun u v => decide (rk u < rk v)) x z = false := by
      intro A0 z hAe
      have hzm : z ∈ rkFilter rk 0 S ++ rkFilter rk 1 S := by
        rw [hAe]; simp
      simp only [decide_eq_false_iff_not]
      rcases List.mem_append.mp hzm with h1 | h1
      · have h2 := rkFilter_mem rk 0 S z h1; omega
      · have h2 := rkFilter_mem rk 1 S z h1; omega
    have key := insertInner_spec (fun u v => decide (rk u < rk v)) x
      (rkFilter rk 2 S) (rkFilter rk 0 S ++ rkFilter rk 1 S) R j hj2 hB hA
    rw [show classConcat rk S ++ x :: R =
        (rkFilter rk 0 S ++ rkFilter rk 1 S) ++ (rkFilter rk 2 S ++ x :: R) by
      simp [classConcat]]
    rw [key, classConcat, rkFilter_snoc_ne rk 0 x S (by omega),
        rkFilter_snoc_eq rk 1 x S h,
        rkFilter_snoc_ne rk 2 x S (by omega)]
    simp
  · have hj2 : j = (classConcat rk S).length + ([] : List α).length := by
      simp only [List.length_nil]
      omega
    have hB : ∀ y ∈ ([] : List α),
        (fun u v => decide (rk u < rk v)) x y = true := by
      intro y hy
      exact absurd hy (List.not_mem_nil y)
    have hA : ∀ A0 z, classConcat rk S = A0 ++ [z] →
        (fun u v => decide (rk u < rk v)) x z = false := by
      intro A0 z _
      have h2 := hrk z
      simp only [decide_eq_false_iff_not]
      omega
    have key := insertInner_spec (fun u v => decide (rk u < rk v)) x
      ([] : List α) (classConcat rk S) R j hj2 hB hA
    simp only [List.nil_append] at key
    have hsnoc : classConcat rk (S ++ [x]) =
        rkFilter rk 0 S ++ rkFilter rk 1 S ++ (rkFilter rk 2 S ++ [x]) := by
      rw [classConcat, rkFilter_snoc_ne rk 0 x S (by omega),
          rkFilter_snoc_ne rk 1 x S (by omega),
          rkFilter_snoc_eq rk 2 x S h]
    rw [key, hsnoc]
    simp [classConcat]

theorem insertOuter_succ (less : α → α → Bool) (a b k : Nat) (l : List α)
    (i : Nat) :
    insertOuter less a b (k+1) l i =
      if i < b then insertOuter less a b k (insertInner less a l i) (i+1)
      else l := rfl

theorem insertOuter_classConcat (rk : α → Nat) (hrk : ∀ x, rk x ≤ 2) :
    ∀ (T : List α) (fuel : Nat) (S : List α) (n : Nat),
      n = S.length + T.length → T.length < fuel →
      insertOuter (fun u v => decide (rk u < rk v)) 0 n fuel
        (classConcat rk S ++ T) S.length =
      classConcat rk (S ++ T) := by
  intro T
  induction T with
  | nil =>
    intro fuel S n hn hf
    cases fuel with
    | zero => omega
    | succ k =>
      rw [insertOuter_succ,
        if_neg (by simp only [List.length_nil] at hn; omega)]
      simp
  | cons x T' ih =>
    intro fuel S n hn hf
    cases fuel with
    | zero => simp at hf
    | succ k =>
      rw [insertOuter_succ,
        if_pos (by simp only [List.length_cons] at hn; omega)]
      rw [insertInner_classConcat rk hrk S x T' S.length rfl]
      have := ih k (S ++ [x]) n
        (by simp only [List.length_cons] at hn
            simp only [List.length_append, List.length_singleton]
            omega)
        (by simp only [List.length_cons] at hf; omega)
      simpa using this

theorem insertionSortGo_classConcat (rk : α → Nat) (hrk : ∀ x, rk x ≤ 2)
    (l : List α) :
    insertionSortGo (fun u v => decide (rk u < rk v)) l 0 l.length =
    classConcat rk l := by
  cases l with
  | nil => rfl
  | cons x t =>
    have hx : classConcat rk [x] = [x] := by
      rcases (by have := hrk x; omega : rk x = 0 ∨ rk x = 1 ∨ rk x = 2)
        with h | h | h <;>
        simp [classConcat, rkFilter, List.filter_cons, h]
    have key := insertOuter_classConcat rk hrk t (t.length + 2) [x]
      (x :: t).length
      (by simp; omega)
      (by omega)
    rw [hx] at key
    rw [insertionSortGo]
    simpa using key

set_option maxHeartbeats 1000000 in
theorem pdqsortGo_small (less : α → α → Bool) (fuel : Nat) (l : List α)
    (a b limit : Nat) (wb wp : Bool) (h : b - a ≤ 12) :
    pdqsortGo less (fuel+1) l a b limit wb wp =
      insertionSortGo less l a b := by
  simp only [pdqsortGo]
  rw [if_pos h]

theorem sortSliceGo_small (less : α → α → Bool) (l : List α)
    (h : l.length ≤ 12) :
    sortSliceGo less l = insertionSortGo less l 0 l.length := by
  rw [sortSliceGo, show 2 * l.length + 8 = (2 * l.length + 7) + 1 by omega]
  exact pdqsortGo_small less (2 * l.length + 7) l 0 l.length
    (bitsLen l.length) true true (by omega)

theorem rkFilter_crit (l : List Issue) :
    rkFilter rkIssue 0 l = sevFilter .Critical l := by
  rw [rkFilter, sevFilter]
  apply List.filter_congr
  intro i _
  cases hv : i.severity <;> simp [rkIssue, severityRank, hv]

theorem rkFilter_warn (l : List Issue) :
    rkFilter rkIssue 1 l = sevFilter .Warning l := by
  rw [rkFilter, sevFilter]
  apply List.filter_congr
  intro i _
  cases hv : i.severity <;> simp [rkIssue, severityRank, hv]

theorem rkFilter_info (l : List Issue) :
    rkFilter rkIssue 2 l = sevFilter .Info l := by
  rw [rkFilter, sevFilter]
  apply List.filter_congr
  intro i _
  cases hv : i.severity <;> simp [rkIssue, severityRank, hv]

set_option maxRecDepth 8000 in
/-- Claim C3 counterexample: on `compsC3` (one record, 13 False
conditions, issue severity ranks W W W W W W C W W W W W W) the issue
list returned by analyze is NOT the stable severity-sorted arrangement
of the scan: the 13-element pdqsort path reorders the equal-severity
Warning issues. -/
theorem claim_C3_counterexample :
    (analyzeComponents compsC3 (emptyEdges 1)).issues ≠
      sevFilter .Critical (scanIssues compsC3 (emptyEdges 1)) ++
      sevFilter .Warning (scanIssues compsC3 (emptyEdges 1)) ++
      sevFilter .Info (scanIssues compsC3 (emptyEdges 1)) := by
  decide

/-- Claim C3 (amended): for every record collection whose scan produces
at most 12 issues, the issue list returned by analyze is sorted stably
by severity rank Critical, then Warning, then Info, each class keeping
the relative order of the per-record scan (input record order, then
per-record condition order); beyond 12 issues the sort still groups by
severity rank but may reorder equal-severity issues (see the
counterexample). -/
theorem claim_C3_amended (comps : List Component) (E : Edges)
    (h : (scanIssues comps E).length ≤ 12) :
    (analyzeComponents comps E).issues =
      sevFilter .Critical (scanIssues comps E) ++
      sevFilter .Warning (scanIssues comps E) ++
      sevFilter .Info (scanIssues comps E) := by
  have hscan := (analyzeScan_spec comps E).2.1
  have hrk : ∀ i : Issue, rkIssue i ≤ 2 := by
    intro i
    rw [rkIssue]
    cases i.severity <;> simp [severityRank]
  show sortSliceGo issueLess (analyzeScan comps E).2.1 = _
  rw [hscan]
  rw [show issueLess = fun u v => decide (rkIssue u < rkIssue v) from rfl]
  rw [sortSliceGo_small _ _ h,
      insertionSortGo_classConcat rkIssue hrk (scanIssues comps E),
      classConcat, rkFilter_crit, rkFilter_warn, rkFilter_info]

set_option maxRecDepth 8000 in
/-- Claim C3 witness: a concrete two-issue collection (a generic Warning
condition listed before the Critical `Ready` rule) satisfies the at
most 12 issues hypothesis, and the amended theorem applies: the result
is the Critical issue first, then the Warning issue, stably. -/
theorem claim_C3_witness :
    (scanIssues compsC3w (emptyEdges 1)).length ≤ 12 ∧
    (analyzeComponents compsC3w (emptyEdges 1)).issues =
      sevFilter .Critical (scanIssues compsC3w (emptyEdges 1)) ++
      sevFilter .Warning (scanIssues compsC3w (emptyEdges 1)) ++
      sevFilter .Info (scanIssues compsC3w (emptyEdges 1)) :=
  ⟨by decide, claim_C3_amended compsC3w (emptyEdges 1) (by decide)⟩

end CapiAdvisor
